import Mathlib

/-!
Verification development for the UAV Log Viewer backend core
(`uav_log_viewer.analysis` and `uav_log_viewer.chat`).

The Python source is shallowly embedded:
* numeric telemetry samples are modelled as exact rationals (`ℚ`);
* values that the code derives through `sqrt` or radian→degree conversion
  are kept symbolic in a small expression type `NumV` whose real-number
  meaning is given by a denotation function (no decision of the code ever
  depends on such a value except through comparisons that are decided by
  an equivalent rational test, proved faithful against the real semantics);
* a Python function that can raise is embedded with the result type
  `PyResult`, where `PyResult.exc` marks an escaped exception;
* Python `str.split`, `str.strip`, `str.splitlines` and the one regex
  used by the response parser are reimplemented over `List Char`.
-/

/-- Result of running a Python function: either a returned value or an
escaped exception (`exc`). -/
inductive PyResult (α : Type) where
  | val (v : α)
  | exc
deriving DecidableEq

/-- Does `sep` occur at the head of `s` (list-prefix test on characters)? -/
def leadsWith : List Char → List Char → Bool
  | [], _ => true
  | _ :: _, [] => false
  | a :: as, b :: bs => a = b && leadsWith as bs

/-- Index of the first occurrence of `sep` in `s` (leftmost match), as used
by Python's `str.split`/`in` scanning. -/
def firstOcc (sep : List Char) : List Char → Option Nat
  | [] => if leadsWith sep [] then some 0 else none
  | c :: rest => if leadsWith sep (c :: rest) then some 0 else (firstOcc sep rest).map (· + 1)

/-- Python `sub in s` (substring containment). -/
def pyContains (s sub : List Char) : Bool :=
  (firstOcc sub s).isSome

/-- One splitting step sequence of Python `s.split(sep)`, driven by a fuel
counter so the recursion is structural (and kernel-evaluable).  `pySplit`
supplies `s.length + 1` fuel, which consumption of at least one character
per step can never exhaust, so the fuel-0 branch is unreachable there. -/
def pySplitF (sep : List Char) : Nat → List Char → List (List Char)
  | 0, s => [s]
  | n + 1, s =>
      match firstOcc sep s with
      | none => [s]
      | some i => s.take i :: pySplitF sep n (s.drop (i + sep.length))

/-- Python `s.split(sep)` for a non-empty separator: split at the
leftmost, non-overlapping occurrences. (Python raises on an empty
separator; that guard branch is never exercised by the embedded code.) -/
def pySplit (sep s : List Char) : List (List Char) :=
  if sep = [] then [s] else pySplitF sep (s.length + 1) s

/-!  ## The telemetry tree used by the field extractor

`DataExtractor.discover_fields` / `extract_value` treat the telemetry blob
as an untyped nested structure of dicts, lists and scalars; `JVal` is that
duck-typed value universe.  A Python `None` stored in the tree and the
`None` returned on a failed lookup are the same object, so both are
`JVal.null`. -/

inductive JVal where
  | null
  | num (x : ℚ)
  | str (s : String)
  | arr (items : List JVal)
  | obj (fields : List (String × JVal))

/-- Python `isinstance(d, dict)`. -/
def JVal.isObj : JVal → Bool
  | JVal.obj _ => true
  | _ => false

/-- Python `isinstance(d, (dict, list))`. -/
def isContainer : JVal → Bool
  | JVal.obj _ => true
  | JVal.arr _ => true
  | _ => false

/-- Is this value the `null`/`None` marker? -/
def JVal.isNull : JVal → Bool
  | JVal.null => true
  | _ => false

/-- Python `d.get(key)` on a dict: the stored value, or `None` when the key
is absent. -/
def jGet : List (String × JVal) → String → JVal
  | [], _ => JVal.null
  | (k, v) :: rest, key => if k = key then v else jGet rest key

/-- The loop body of `DataExtractor.extract_value`: descend through nested
dicts one key at a time; any non-dict met before the path is exhausted
yields `None`. -/
def walkPath : JVal → List String → JVal
  | d, [] => d
  | JVal.obj fs, k :: ks => walkPath (jGet fs k) ks
  | _, _ :: _ => JVal.null
termination_by d ks => ks.length

/-- `DataExtractor.extract_value(data, path)`: split the dot-separated path
and walk the tree (`src/backend/uav_log_viewer/analysis/data_extractor.py`,
lines 84–91). -/
def extract_value (data : JVal) (path : String) : JVal :=
  walkPath data ((pySplit ['.'] path.data).map fun cs => String.mk cs)

/-- `joinKey pfx k` is Python's `f"{prefix}.{k}" if prefix else k`. -/
def joinKey (pfx : String) (k : String) : String :=
  if pfx = "" then k else pfx ++ "." ++ k

mutual
/-- `DataExtractor.discover_fields(data, prefix)` (`data_extractor.py`,
lines 71–82): every dot-joined path reachable by descending through nested
dicts, inspecting only the first element of a list whose first element is
itself a container.  The Python function returns a `set`; the model returns
the enumeration list (membership is what all properties use). -/
def discover_fields : JVal → String → List String
  | JVal.obj fs, pfx => discoverList fs pfx
  | JVal.arr (x :: _), pfx => if isContainer x then discover_fields x pfx else []
  | _, _ => []

/-- The `for k, v in data.items()` loop of `discover_fields`. -/
def discoverList : List (String × JVal) → String → List String
  | [], _ => []
  | (k, v) :: rest, pfx =>
      (joinKey pfx k :: discover_fields v (joinKey pfx k)) ++ discoverList rest pfx
end

mutual
/-- The value a path discovered by `discover_fields` denotes on the tree it
was discovered from: descend through dicts by key and dive through the
first element of container-headed lists without consuming a path segment
(exactly the descent `discover_fields` performs). -/
def origResolve : JVal → List String → JVal
  | d, [] => d
  | JVal.obj fs, k :: ks => origList fs k ks
  | JVal.arr (x :: _), k :: ks =>
      if isContainer x then origResolve x (k :: ks) else JVal.null
  | _, _ :: _ => JVal.null

/-- Key lookup step of `origResolve`. -/
def origList : List (String × JVal) → String → List String → JVal
  | [], _, _ => JVal.null
  | (k', v) :: rest, k, ks => if k' = k then origResolve v ks else origList rest k ks
end

mutual
/-- Trees in which no list has a container (dict or list) as its first
element: exactly the trees on which `discover_fields` never takes its
dive-through-the-list branch, so every discovered path descends through
dicts alone. -/
def plainTree : JVal → Bool
  | JVal.null => true
  | JVal.num _ => true
  | JVal.str _ => true
  | JVal.arr [] => true
  | JVal.arr (x :: _) => !(isContainer x)
  | JVal.obj fs => plainFields fs

/-- `plainTree` over the fields of a dict. -/
def plainFields : List (String × JVal) → Bool
  | [] => true
  | (_, v) :: rest => plainTree v && plainFields rest
end

/-!  ## Telemetry structure for the metric library and anomaly detector

`telemetry.py` and `anomalies.py` only ever read
`tele["messages"][MSG][field]`, a mapping from message-type names to
mappings from field names to ordered sequences of numeric samples; `Tele`
is that shape.  Samples are exact rationals; numpy float arithmetic is
modelled by exact arithmetic (every comparison the code performs is robust
far from equality for the inputs of interest). -/

/-- Message type: field name → sample sequence. -/
abbrev MsgFields := List (String × List ℚ)

/-- The telemetry structure seen through `tele.get("messages", {})`. -/
structure Tele where
  messages : List (String × MsgFields)

/-- First-match association lookup, Python `dict.get` (keys are unique in
any dict the code builds). -/
def alookup {α : Type} : List (String × α) → String → Option α
  | [], _ => none
  | (k, v) :: rest, key => if k = key then some v else alookup rest key

/-- `_get_msg(tele, msg)` (`telemetry.py`, lines 27–28). -/
def get_msg (tele : Tele) (msg : String) : Option MsgFields :=
  alookup tele.messages msg

/-- Minimum of a sample list (`arr.min()` / `np.nanmin` on NaN-free data);
callers guard against the empty list, where numpy raises. -/
def qmin (l : List ℚ) : ℚ := l.foldl min (l.headD 0)

/-- Maximum of a sample list. -/
def qmax (l : List ℚ) : ℚ := l.foldl max (l.headD 0)

/-- `arr.mean()` (exact). -/
def qmean (l : List ℚ) : ℚ := l.sum / l.length

/-- `arr.std() ** 2`: the mean squared deviation (ddof = 0). -/
def qvar (l : List ℚ) : ℚ := qmean (l.map fun x => (x - qmean l) ^ 2)

/-- `np.diff`. -/
def npdiff (l : List ℚ) : List ℚ := List.zipWith (fun a b => b - a) l l.tail

/-- Elementwise binary numpy operation on two 1-D arrays with numpy
broadcasting: equal lengths zip; a length-1 side is stretched; anything
else raises `ValueError`. -/
def bcast2 (f : ℚ → ℚ → ℚ) (a b : List ℚ) : PyResult (List ℚ) :=
  if a.length = b.length then .val (List.zipWith f a b)
  else if a.length = 1 then .val (b.map (f (a.headD 0)))
  else if b.length = 1 then .val (a.map fun x => f x (b.headD 0))
  else .exc

/-- Python `int(x)` on a float: truncation toward zero. -/
def ratTrunc (x : ℚ) : ℤ := Int.tdiv x.num (x.den : ℤ)

/-!  ### Symbolic numeric values

Derived metric values that involve `√` or π are carried symbolically; no
control decision of the embedded code depends on them. -/

/-- Symbolic numeric value: an exact rational, IEEE NaN, `√x`,
`x·180/π`, `√x·180/π`, or `Σ cᵢ·√sᵢ`. -/
inductive NumV where
  | q (x : ℚ)
  | nan
  | sqrtq (x : ℚ)
  | degq (x : ℚ)
  | degsq (x : ℚ)
  | sqrtSum (terms : List (ℚ × ℚ))
deriving DecidableEq

/-- Real-number meaning of a symbolic value (`nan` falls outside the
real-number model and is read as 0; nothing proved below inspects it). -/
noncomputable def NumV.toReal : NumV → ℝ
  | NumV.q x => (x : ℝ)
  | NumV.nan => 0
  | NumV.sqrtq x => Real.sqrt (x : ℝ)
  | NumV.degq x => (x : ℝ) * 180 / Real.pi
  | NumV.degsq x => Real.sqrt (x : ℝ) * 180 / Real.pi
  | NumV.sqrtSum l => (l.map fun cs => (cs.1 : ℝ) * Real.sqrt (cs.2 : ℝ)).sum

/-!  ### Unit-normalizing metric library (`telemetry.py`) -/

/-- The `if msg and "time_boot_ms" in msg` step shared by both branches of
`time_vector`: an absent or empty (falsy) dict, or a missing key, yields
nothing; otherwise milliseconds → seconds. -/
def time_from (m : Option MsgFields) : Option (List ℚ) :=
  match m with
  | none => none
  | some fields =>
      if fields = [] then none
      else
        match alookup fields "time_boot_ms" with
        | none => none
        | some t => some (t.map (· / 1000))

/-- `time_vector` (`telemetry.py`, lines 40–47): prefer
`SYSTEM_TIME.time_boot_ms`, fall back to
`GLOBAL_POSITION_INT.time_boot_ms`. -/
def time_vector (tele : Tele) : Option (List ℚ) :=
  match time_from (get_msg tele "SYSTEM_TIME") with
  | some t => some t
  | none => time_from (get_msg tele "GLOBAL_POSITION_INT")

/-- `flight_duration` (lines 53–57): `t[-1] - t[0]`, `None` below 2
samples. -/
def flight_duration (tele : Tele) : Option ℚ :=
  match time_vector tele with
  | none => none
  | some t => if t.length < 2 then none else some (t.getLastD 0 - t.headD 0)

/-- `altitude_vector` with its default source
`GLOBAL_POSITION_INT.alt` (lines 63–71); the source always starts with
`GLOBAL_POSITION_INT`, so the ÷1000 scaling always applies. -/
def altitude_vector (tele : Tele) : Option (List ℚ) :=
  match get_msg tele "GLOBAL_POSITION_INT" with
  | none => none
  | some m =>
      match alookup m "alt" with
      | none => none
      | some a => some (a.map (· / 1000))

/-- `altitude_stats` (lines 74–78). -/
def altitude_stats (tele : Tele) : Option (ℚ × ℚ × ℚ) :=
  match altitude_vector tele with
  | none => none
  | some alt => if alt = [] then none else some (qmin alt, qmax alt, qmean alt)

/-- `vertical_speed_vector` (lines 95–100): `np.diff(alt)/np.diff(t)`; the
guard checks only `alt.size < 2`, so mismatched shapes reach the
broadcast, which raises unless the lengths agree or one side has length 1.
(Lean's `x/0 = 0` stands in for numpy ±inf/NaN on a zero time step; no
modelled decision reads those entries.) -/
def vertical_speed_vector (tele : Tele) : PyResult (Option (List ℚ)) :=
  match altitude_vector tele, time_vector tele with
  | some alt, some t =>
      if alt.length < 2 then .val none
      else
        match bcast2 (fun a b => a / b) (npdiff alt) (npdiff t) with
        | .val v => .val (some v)
        | .exc => .exc
  | _, _ => .val none

/-- `max_climb_rate` (lines 103–107): `np.nanmax` raises on a zero-size
array. -/
def max_climb_rate (tele : Tele) : PyResult (Option ℚ) :=
  match vertical_speed_vector tele with
  | .exc => .exc
  | .val none => .val none
  | .val (some vs) => if vs = [] then .exc else .val (some (qmax vs))

/-- `max_descent_rate` (lines 110–114). -/
def max_descent_rate (tele : Tele) : PyResult (Option ℚ) :=
  match vertical_speed_vector tele with
  | .exc => .exc
  | .val none => .val none
  | .val (some vs) => if vs = [] then .exc else .val (some (qmin vs))

/-- `velocity_vectors` (lines 120–127): cm/s → m/s. -/
def velocity_vectors (tele : Tele) : Option (List ℚ × List ℚ × List ℚ) :=
  match get_msg tele "GLOBAL_POSITION_INT" with
  | none => none
  | some g =>
      match alookup g "vx", alookup g "vy", alookup g "vz" with
      | some vx, some vy, some vz =>
          some (vx.map (· / 100), vy.map (· / 100), vz.map (· / 100))
      | _, _, _ => none

/-- `groundspeed_vector` (lines 130–135): `np.hypot(vx, vy)`.  Each numpy
entry is `√(vx²+vy²)`; the model carries the radicand `vx²+vy²`, and every
downstream use (min, max, mean, weighted sum) goes through `NumV`, where
the square root is reapplied symbolically.  Mismatched lengths follow
numpy broadcasting (`bcast2`). -/
def groundspeed_vector (tele : Tele) : PyResult (Option (List ℚ)) :=
  match velocity_vectors tele with
  | none => .val none
  | some v =>
      match bcast2 (fun a b => a ^ 2 + b ^ 2) v.1 v.2.1 with
      | .val r => .val (some r)
      | .exc => .exc

/-- `groundspeed_stats` (lines 138–142): min/max commute with the
monotone `√`, so `gs.min()` is `√(min radicand)`; `gs.mean()` is
`Σ (1/n)·√sᵢ`. -/
def groundspeed_stats (tele : Tele) : PyResult (Option (NumV × NumV × NumV)) :=
  match groundspeed_vector tele with
  | .exc => .exc
  | .val none => .val none
  | .val (some r) =>
      if r = [] then .val none
      else
        .val (some (NumV.sqrtq (qmin r), NumV.sqrtq (qmax r),
          NumV.sqrtSum (r.map fun s => (1 / (r.length : ℚ), s))))

/-- `distance_travelled_2d` (lines 145–150): guarded left-Riemann sum
`Σ gs[1:]·diff(t)` requiring equal sizes. -/
def distance_travelled_2d (tele : Tele) : PyResult (Option NumV) :=
  match groundspeed_vector tele with
  | .exc => .exc
  | .val none => .val none
  | .val (some r) =>
      match time_vector tele with
      | none => .val none
      | some t =>
          if r.length ≠ t.length then .val none
          else .val (some (NumV.sqrtSum (List.zipWith (fun s dt => (dt, s)) r.tail (npdiff t))))

/-- Pair a vector of radicands with a vector of coefficients under numpy
broadcasting (the `speed[1:] * np.diff(t)` product of
`distance_travelled_3d`, whose factors are a √-vector and a plain
vector). -/
def bcastPairs (rs ds : List ℚ) : PyResult (List (ℚ × ℚ)) :=
  if rs.length = ds.length then .val (List.zipWith (fun s d => (d, s)) rs ds)
  else if rs.length = 1 then .val (ds.map fun d => (d, rs.headD 0))
  else if ds.length = 1 then .val (rs.map fun s => (ds.headD 0, s))
  else .exc

/-- `distance_travelled_3d` (lines 153–159): no size guard at all — both
the 3-component speed and the final product can raise on mismatched
shapes. -/
def distance_travelled_3d (tele : Tele) : PyResult (Option NumV) :=
  match velocity_vectors tele, time_vector tele with
  | some v, some t =>
      match bcast2 (· + ·) (v.1.map (· ^ 2)) (v.2.1.map (· ^ 2)) with
      | .exc => .exc
      | .val s2 =>
          match bcast2 (· + ·) s2 (v.2.2.map (· ^ 2)) with
          | .exc => .exc
          | .val r3 =>
              match bcastPairs r3.tail (npdiff t) with
              | .exc => .exc
              | .val ps => .val (some (NumV.sqrtSum ps))
  | _, _ => .val none

/-- `battery_stats` (lines 165–171): mV → V and cA → A; `np.nanmin(v)` and
`np.nanmax(c)` raise on zero-size arrays (`v` empty, or `current_battery`
present but empty); a missing `current_battery` defaults to an all-NaN
array of `len(v)`, whose `nanmax` is NaN (a warning, not an exception). -/
def battery_stats (tele : Tele) : PyResult (Option (ℚ × NumV)) :=
  match get_msg tele "BATTERY_STATUS" with
  | none => .val none
  | some b =>
      match alookup b "voltages" with
      | none => .val none
      | some vsRaw =>
          if vsRaw = [] then .exc
          else
            match alookup b "current_battery" with
            | none => .val (some (qmin (vsRaw.map (· / 1000)), NumV.nan))
            | some cRaw =>
                if cRaw = [] then .exc
                else .val (some (qmin (vsRaw.map (· / 1000)), NumV.q (qmax (cRaw.map (· / 100)))))

/-- `satellite_visibility_stats` (lines 177–182): the samples are cast to
int (`_to_np(..., int)` truncates toward zero); `.min()`/`.max()` raise on
an empty array. -/
def satellite_visibility_stats (tele : Tele) : PyResult (Option (ℤ × ℤ × ℚ)) :=
  match get_msg tele "GPS_RAW_INT" with
  | none => .val none
  | some g =>
      match alookup g "satellites_visible" with
      | none => .val none
      | some sraw =>
          if sraw = [] then .exc
          else
            .val (some ((sraw.map ratTrunc).foldl min ((sraw.map ratTrunc).headD 0),
              (sraw.map ratTrunc).foldl max ((sraw.map ratTrunc).headD 0),
              ((sraw.map ratTrunc).map fun z => (z : ℚ)).sum / sraw.length))

/-- Per-axis `(mean, std)` of `attitude_stats`, in degrees: the mean of
`x·180/π` is `(mean x)·180/π` and its std is `√(var x)·180/π`.  On an
empty axis numpy yields NaN (warning, no exception). -/
def axis_stats (xs : List ℚ) : NumV × NumV :=
  if xs = [] then (NumV.nan, NumV.nan)
  else (NumV.degq (qmean xs), NumV.degsq (qvar xs))

/-- `attitude_stats` (lines 188–197): a dict with one `(mean, std)` pair
per axis present among roll/pitch/yaw (possibly empty, which is not
`None`). -/
def attitude_stats (tele : Tele) : Option (List (String × (NumV × NumV))) :=
  match get_msg tele "ATTITUDE" with
  | none => none
  | some att =>
      some (["roll", "pitch", "yaw"].filterMap fun f =>
        (alookup att f).map fun xs => (f, axis_stats xs))

/-!  ### Metric aggregator (`compute_metrics`) -/

/-- Heterogeneous Python value returned by a metric function: scalar,
tuple, or dict (only `attitude_stats` produces a dict, whose values are
2-tuples). -/
inductive PyVal where
  | num (v : NumV)
  | tup (xs : List NumV)
  | pdict (fields : List (String × PyVal))

/-- Suffix test over characters (`str.endswith`), re-implemented because
`String.endsWith` does not reduce in the kernel. -/
def charsEndsWith (s suf : List Char) : Bool :=
  leadsWith suf.reverse s.reverse

/-- `name.endswith(suffix)`. -/
def strEndsWith (s suf : String) : Bool :=
  charsEndsWith s.data suf.data

/-- `s.replace(pat, rep)` (all occurrences, left to right): split on the
pattern and re-join with the replacement. -/
def strReplace (s pat rep : String) : String :=
  String.mk (List.intercalate rep.data (pySplit pat.data s.data))

/-- The flattening of one metric result into key/value rows
(`compute_metrics`, lines 231–256): `*_stats` tuples become
`{base}_min/_max/_mean` (2-tuples drop `_mean`); the `battery_stats`
branch is only reached if the name is *not* caught by the `_stats` test;
other tuples are stored whole; dict entries with 2-tuple values become
`{k}_mean_deg`/`{k}_std_deg`; scalars keep the metric name. -/
def flattenOne (name : String) (val : PyVal) : List (String × PyVal) :=
  match val with
  | PyVal.tup xs =>
      if strEndsWith name "_stats" then
        match xs with
        | [a, b, c] =>
            [(strReplace name "_stats" "" ++ "_min", PyVal.num a),
             (strReplace name "_stats" "" ++ "_max", PyVal.num b),
             (strReplace name "_stats" "" ++ "_mean", PyVal.num c)]
        | [a, b] =>
            [(strReplace name "_stats" "" ++ "_min", PyVal.num a),
             (strReplace name "_stats" "" ++ "_max", PyVal.num b)]
        | _ => []
      else if name = "battery_stats" then
        match xs with
        | a :: b :: _ =>
            [("battery_min_voltage_v", PyVal.num a),
             ("battery_max_current_a", PyVal.num b)]
        | _ => []
      else [(name, PyVal.tup xs)]
  | PyVal.pdict fields =>
      fields.flatMap fun kv =>
        match kv.2 with
        | PyVal.tup [a, b] =>
            [(kv.1 ++ "_mean_deg", PyVal.num a), (kv.1 ++ "_std_deg", PyVal.num b)]
        | v => [(kv.1, v)]
  | PyVal.num x => [(name, PyVal.num x)]

/-- `_METRIC_FUNCS` (lines 203–214), with each library result packed into
the untyped `PyVal` the aggregator inspects. -/
def METRIC_FUNCS : List (String × (Tele → PyResult (Option PyVal))) :=
  [("flight_duration_s", fun t =>
      .val ((flight_duration t).map fun d => PyVal.num (NumV.q d))),
   ("altitude_stats", fun t =>
      .val ((altitude_stats t).map fun s => PyVal.tup [NumV.q s.1, NumV.q s.2.1, NumV.q s.2.2])),
   ("max_climb_rate_mps", fun t =>
      match max_climb_rate t with
      | .exc => .exc
      | .val o => .val (o.map fun r => PyVal.num (NumV.q r))),
   ("max_descent_rate_mps", fun t =>
      match max_descent_rate t with
      | .exc => .exc
      | .val o => .val (o.map fun r => PyVal.num (NumV.q r))),
   ("groundspeed_stats", fun t =>
      match groundspeed_stats t with
      | .exc => .exc
      | .val o => .val (o.map fun s => PyVal.tup [s.1, s.2.1, s.2.2])),
   ("distance_2d_m", fun t =>
      match distance_travelled_2d t with
      | .exc => .exc
      | .val o => .val (o.map PyVal.num)),
   ("distance_3d_m", fun t =>
      match distance_travelled_3d t with
      | .exc => .exc
      | .val o => .val (o.map PyVal.num)),
   ("battery_stats", fun t =>
      match battery_stats t with
      | .exc => .exc
      | .val o => .val (o.map fun p => PyVal.tup [NumV.q p.1, p.2])),
   ("satellite_visibility", fun t =>
      match satellite_visibility_stats t with
      | .exc => .exc
      | .val o => .val (o.map fun s => PyVal.tup [NumV.q (s.1 : ℚ), NumV.q (s.2.1 : ℚ), NumV.q s.2.2])),
   ("attitude_stats", fun t =>
      .val ((attitude_stats t).map fun axes =>
        PyVal.pdict (axes.map fun kv => (kv.1, PyVal.tup [kv.2.1, kv.2.2]))))]

/-- `compute_metrics` (lines 217–258): run every metric, discard raised
exceptions and `None` results, flatten the rest.  The metric names produce
pairwise distinct keys, so Python's dict insertion is list append. -/
def compute_metrics (tele : Tele) : List (String × PyVal) :=
  METRIC_FUNCS.foldl (fun results nf =>
    match nf.2 tele with
    | .exc => results
    | .val none => results
    | .val (some v) => results ++ flattenOne nf.1 v) []

/-- The per-metric step of `compute_metrics` in isolation: a raised
exception or a `None` result contributes nothing, anything else is
flattened. -/
def flatResult (name : String) (r : PyResult (Option PyVal)) : List (String × PyVal) :=
  match r with
  | .exc => []
  | .val none => []
  | .val (some v) => flattenOne name v

/-!  ### Rule-based anomaly detector (`anomalies.py`, `highlight_anomalies`) -/

/-- An anomaly flag (`anomalies.py`); hint strings keep the source wording
minus numeric float formatting. -/
structure AnomFlag where
  feature : String
  index : Nat
  value : NumV
  pattern : String
  hint : String
deriving DecidableEq

/-- The z-score epsilon `1e-6`. -/
def zEps : ℚ := 1 / 1000000

/-- Decidable rational test for `a / (√v + ε) > t` (the z-score
comparison), valid for `a ≥ 0`, `v ≥ 0`, `t ≥ 0`: equivalent to
`a - t·ε > 0` and `(a - t·ε)² > t²·v` (proved against the real semantics
in `zGtQ_correct` below). -/
def zGtQ (t a v : ℚ) : Bool :=
  decide (0 < a - t * zEps) && decide (t ^ 2 * v < (a - t * zEps) ^ 2)

/-- `z_outliers` (`anomalies.py`, lines 223–238): below 5 samples nothing
is flagged; otherwise every index whose `|x - mean| / (std + 1e-6)`
exceeds the threshold is flagged (std = `√(qvar xs)`; the comparison is
decided by `zGtQ`). -/
def z_outliers (name : String) (xs : List ℚ) (threshold : ℚ) : List AnomFlag :=
  if xs.length < 5 then []
  else
    (List.range xs.length).filterMap fun idx =>
      if zGtQ threshold |xs.getD idx 0 - qmean xs| (qvar xs) then
        some { feature := name, index := idx, value := NumV.q (xs.getD idx 0),
               pattern := "z-score",
               hint := s!"Unusual {name} value at index {idx}" }
      else none

/-- The attitude z-score scan of `highlight_anomalies` (lines 243–246),
threshold 2.5 (the Python default). -/
def attitudeFlags (msgs : List (String × MsgFields)) : List AnomFlag :=
  match alookup msgs "ATTITUDE" with
  | none => []
  | some att =>
      ["roll", "pitch", "yaw"].flatMap fun f =>
        match alookup att f with
        | none => []
        | some xs => z_outliers ("attitude." ++ f) xs (5 / 2)

/-- The position/velocity z-score scan (lines 249–252). -/
def positionFlags (msgs : List (String × MsgFields)) : List AnomFlag :=
  match alookup msgs "GLOBAL_POSITION_INT" with
  | none => []
  | some g =>
      ["alt", "relative_alt", "vx", "vy", "vz"].flatMap fun f =>
        match alookup g f with
        | none => []
        | some xs => z_outliers ("position." ++ f) xs (5 / 2)

/-- The GPS low-satellite scan (lines 255–266): every sample strictly
below 6 is flagged with its index and `int(val)`. -/
def gpsFlags (msgs : List (String × MsgFields)) : List AnomFlag :=
  match alookup msgs "GPS_RAW_INT" with
  | none => []
  | some g =>
      match alookup g "satellites_visible" with
      | none => []
      | some sats =>
          (List.range sats.length).filterMap fun idx =>
            if sats.getD idx 0 < 6 then
              some { feature := "gps.satellites_visible", index := idx,
                     value := NumV.q ((ratTrunc (sats.getD idx 0) : ℤ) : ℚ),
                     pattern := "low_satellites",
                     hint := s!"Only satellites at index {idx}; GPS may be unreliable" }
            else none

/-- The battery-sag scan (lines 269–283): every per-cell voltage sample
below 3.4 V is flagged (the `mv is None` guard is vacuous here since
samples are numeric). -/
def batteryFlags (msgs : List (String × MsgFields)) : List AnomFlag :=
  match alookup msgs "BATTERY_STATUS" with
  | none => []
  | some b =>
      match alookup b "voltages" with
      | none => []
      | some mvs =>
          (List.range mvs.length).filterMap fun idx =>
            if mvs.getD idx 0 / 1000 < 3.4 then
              some { feature := "battery.voltage", index := idx,
                     value := NumV.q (mvs.getD idx 0 / 1000),
                     pattern := "voltage_sag",
                     hint := s!"Cell voltage dropped (index {idx})" }
            else none

/-- The vibration scan (lines 286–302) and with it the whole of
`highlight_anomalies`: the RMS `√(x²+y²+z²)` is compared against 30,
i.e. the radicand against 900 (`vibration_cond_correct` below); the three
component arrays are combined under numpy broadcasting, so mismatched
lengths raise a `ValueError` that escapes `highlight_anomalies` — the
`.exc` result. -/
def highlight_anomalies (telemetry : Tele) : PyResult (List AnomFlag) :=
  match alookup telemetry.messages "VIBRATION" with
  | none =>
      .val (attitudeFlags telemetry.messages ++ positionFlags telemetry.messages ++
        gpsFlags telemetry.messages ++ batteryFlags telemetry.messages)
  | some vb =>
      match alookup vb "vibration_x", alookup vb "vibration_y", alookup vb "vibration_z" with
      | some vx, some vy, some vz =>
          if vx = [] then
            .val (attitudeFlags telemetry.messages ++ positionFlags telemetry.messages ++
              gpsFlags telemetry.messages ++ batteryFlags telemetry.messages)
          else
            match bcast2 (· + ·) (vx.map (· ^ 2)) (vy.map (· ^ 2)) with
            | .exc => .exc
            | .val s2 =>
                match bcast2 (· + ·) s2 (vz.map (· ^ 2)) with
                | .exc => .exc
                | .val r =>
                    .val (attitudeFlags telemetry.messages ++ positionFlags telemetry.messages ++
                      gpsFlags telemetry.messages ++ batteryFlags telemetry.messages ++
                      (List.range r.length).filterMap fun idx =>
                        if 900 < r.getD idx 0 then
                          some { feature := "vibration.rms", index := idx,
                                 value := NumV.sqrtq (r.getD idx 0),
                                 pattern := "high_vibration",
                                 hint := s!"High vibration RMS at index {idx}" }
                        else none)
      | _, _, _ =>
          .val (attitudeFlags telemetry.messages ++ positionFlags telemetry.messages ++
            gpsFlags telemetry.messages ++ batteryFlags telemetry.messages)

/-!  ### The `/analysis` endpoint (`routes/analysis.py`)

The similarity ranking inside `extract_relevant_data` is produced by an
external embedding service; the endpoint model therefore takes the ranked
(post-threshold, similarity-sorted) path list as a parameter and performs
the deterministic part: truncation to `top_k` and reconstruction of the
selected paths against the telemetry tree. -/

/-- Python dict assignment on an association list: overwrite in place or
append. -/
def upsert {α : Type} : List (String × α) → String → α → List (String × α)
  | [], k, v => [(k, v)]
  | (k', v') :: rest, k, v =>
      if k' = k then (k, v) :: rest else (k', v') :: upsert rest k v

/-- `path.split('.')` as a list of segment strings. -/
def pySplitStr (s : String) : List String :=
  (pySplit ['.'] s.data).map fun cs => String.mk cs

/-- The reconstruction loop of `DataExtractor.extract_relevant_data`
(lines 139–150) specialised to telemetry-shaped trees: for each selected
path, `extract_value` resolves against the original tree (paths of shapes
other than `messages[...]` resolve to nothing and are skipped) and the
value is written back through the `setdefault` chain.  Python's structure
sharing on re-assignment of identical values is observationally the value
semantics used here. -/
def rebuildSelected (telemetry : Tele) (paths : List String) : Tele :=
  paths.foldl (fun sel path =>
    match pySplitStr path with
    | ["messages"] => { messages := telemetry.messages }
    | ["messages", m] =>
        match alookup telemetry.messages m with
        | none => sel
        | some fields => { messages := upsert sel.messages m fields }
    | ["messages", m, f] =>
        match alookup telemetry.messages m with
        | none => sel
        | some fields =>
            match alookup fields f with
            | none => sel
            | some xs =>
                { messages := upsert sel.messages m
                    (upsert ((alookup sel.messages m).getD []) f xs) }
    | _ => sel) { messages := [] }

/-- `extract_relevant_data` with `rerank=False` (the `/analysis` call):
truncate the ranked pool to `top_k` and rebuild. -/
def extract_relevant_data (telemetry : Tele) (rankedPaths : List String) (top_k : Nat) : Tele :=
  rebuildSelected telemetry (rankedPaths.take top_k)

/-- `analysis_endpoint` (`routes/analysis.py`, lines 28–36): reject empty
telemetry with HTTP 400 (`.exc`), otherwise return
`compute_metrics(extracted)` — note: of the *extracted* structure — plus
the extracted sample, with `top_k = 25`. -/
def analysis_endpoint (telemetry : Tele) (rankedPaths : List String) :
    PyResult (List (String × PyVal) × Tele) :=
  if telemetry.messages = [] then .exc
  else
    .val (compute_metrics (extract_relevant_data telemetry rankedPaths 25),
      extract_relevant_data telemetry rankedPaths 25)

/-!  ### Response parsing (`chat/prompt.py`, `chat/processor.py`) -/

/-- Python `str.isspace` characters relevant to `strip` (space, tab,
newline, carriage return, vertical tab, form feed). -/
def pySpaceChar (c : Char) : Bool :=
  c = ' ' || c = '\t' || c = '\n' || c = '\r' || c = Char.ofNat 11 || c = Char.ofNat 12

/-- Python `s.strip()`. -/
def pyStrip (s : List Char) : List Char :=
  ((s.dropWhile pySpaceChar).reverse.dropWhile pySpaceChar).reverse

/-- Python `s.splitlines()` restricted to `'\n'` line breaks (the only
break the prompt format and the parsed blocks use; a lone `'\r'` is
swallowed by the per-line `strip` that always follows). -/
def pySplitlines (s : List Char) : List (List Char) :=
  if s = [] then []
  else
    if s.getLast? = some '\n' then (pySplit ['\n'] s).dropLast
    else pySplit ['\n'] s

/-- `re.sub(r"^(\d+\.|[-•])\s*", "", line)`: strip one leading numbering
(`digits` + `.`) or bullet (`-` / `•`) marker plus following
whitespace. -/
def stripListMarker (cs : List Char) : List Char :=
  if (cs.takeWhile Char.isDigit) ≠ [] ∧ (cs.drop (cs.takeWhile Char.isDigit).length).head? = some '.' then
    (cs.drop ((cs.takeWhile Char.isDigit).length + 1)).dropWhile pySpaceChar
  else
    match cs with
    | c :: rest => if c = '-' ∨ c = '•' then rest.dropWhile pySpaceChar else cs
    | [] => cs

/-- The per-line processing of the `<suggested_questions>` block: strip
the block, split it into lines, drop blank lines, strip list markers. -/
def suggestionLines (block : List Char) : List String :=
  (pySplitlines (pyStrip block)).filterMap fun raw =>
    if pyStrip raw = [] then none
    else some (String.mk (stripListMarker (pyStrip raw)))

/-- The text between the first occurrence of `opener` and the next
`closer` after it, i.e. Python's
`response.split(opener)[1].split(closer)[0]`. -/
def betweenTags (opener closer r : List Char) : List Char :=
  (pySplit closer ((pySplit opener r).getD 1 [])).getD 0 []

/-- `extract_response_parts` (`prompt.py`, lines 86–105): the text between
the first `<answer>` and the following `</answer>` (trimmed; empty string
when either tag is absent), and one suggestion per non-blank line of the
`<suggested_questions>` block with leading list markers stripped — with
**no** cap on the number of suggestions. -/
def extract_response_parts (response : String) : String × List String :=
  ( String.mk
      (if pyContains response.data "<answer>".data &&
          pyContains response.data "</answer>".data then
        pyStrip (betweenTags "<answer>".data "</answer>".data response.data)
      else []),
    if pyContains response.data "<suggested_questions>".data &&
        pyContains response.data "</suggested_questions>".data then
      suggestionLines (betweenTags "<suggested_questions>".data "</suggested_questions>".data response.data)
    else [] )

/-- The response-splitting step of `process_chat_request`
(`processor.py`, lines 131–138): `parts["answer"] or raw_answer` — the
raw text is the answer whenever the extracted answer is empty (absent
tags included); the surrounding `try/except` never fires since
`extract_response_parts` is total. -/
def process_response (raw : String) : String × List String :=
  (if (extract_response_parts raw).1 = "" then raw else (extract_response_parts raw).1,
   (extract_response_parts raw).2)

/-!  # Theorems -/

/-- `pySplit` always yields at least one piece (Python `s.split(sep)` is
never the empty list). -/
theorem pySplitF_ne_nil (sep : List Char) (n : Nat) (s : List Char) :
    pySplitF sep n s ≠ [] := by
  cases n with
  | zero => simp [pySplitF]
  | succ m => unfold pySplitF; split <;> simp

theorem pySplit_ne_nil (sep s : List Char) : pySplit sep s ≠ [] := by
  unfold pySplit
  split
  · simp
  · exact pySplitF_ne_nil _ _ _

/-- C10: `extract_value` is total on its public interface — it is a plain
(terminating, exception-free) function of the tree and the path string —
and whenever traversal reaches an intermediate value that is not a mapping
while path segments remain, the result is `None`; in particular a
non-mapping root yields `None` for every path (the split path always has
at least one segment).  An exhausted path returns the value reached. -/
theorem c10_extract_value_safe :
    (∀ (d : JVal) (p : String), d.isObj = false → extract_value d p = JVal.null) ∧
    (∀ (d : JVal) (k : String) (ks : List String), d.isObj = false →
      walkPath d (k :: ks) = JVal.null) ∧
    (∀ d : JVal, walkPath d [] = d) := by
  have hstep : ∀ (d : JVal) (k : String) (ks : List String), d.isObj = false →
      walkPath d (k :: ks) = JVal.null := by
    intro d k ks h
    cases d <;> simp_all [walkPath, JVal.isObj]
  refine ⟨?_, hstep, ?_⟩
  · intro d p h
    unfold extract_value
    cases hm : (pySplit ['.'] p.data).map (fun cs => String.mk cs) with
    | nil =>
        exact absurd (List.map_eq_nil_iff.mp hm) (pySplit_ne_nil _ _)
    | cons k ks => exact hstep d k ks h
  · intro d
    cases d <;> simp [walkPath]

/-- Witness for C10 at a concrete non-mapping tree. -/
theorem c10_witness :
    (JVal.arr [JVal.num 3]).isObj = false ∧
    extract_value (JVal.arr [JVal.num 3]) "a.b" = JVal.null :=
  ⟨rfl, c10_extract_value_safe.1 (JVal.arr [JVal.num 3]) "a.b" rfl⟩

/-- C3 is false on the code: on the tree `{"a": [{"b": 1}]}`,
`discover_fields` yields the leaf path `"a.b"` whose original value
(resolved the way discovery descended, diving through the list) is the
non-null `1`, yet `extract_value` returns `None` because its walk stops at
the list. -/
theorem c3_counterexample :
    ("a.b" ∈ discover_fields (JVal.obj [("a", JVal.arr [JVal.obj [("b", JVal.num 1)]])]) "") ∧
    origResolve (JVal.obj [("a", JVal.arr [JVal.obj [("b", JVal.num 1)]])])
      (pySplitStr "a.b") = JVal.num 1 ∧
    extract_value (JVal.obj [("a", JVal.arr [JVal.obj [("b", JVal.num 1)]])]) "a.b" =
      JVal.null := by
  refine ⟨?_, ?_, ?_⟩
  · simp [discover_fields, discoverList, joinKey, isContainer]
  · have hsplit : pySplitStr "a.b" = ["a", "b"] := by decide
    rw [hsplit]
    simp [origResolve, origList, isContainer]
  · have hsplit : ((pySplit ['.'] "a.b".data).map fun cs => String.mk cs) = ["a", "b"] := by
      decide
    simp only [extract_value]
    rw [hsplit]
    simp [walkPath, jGet]

/-- C1 (code bug): on a telemetry structure where `battery_stats` returns
a 2-tuple, `compute_metrics` files it under `battery_min` / `battery_max`:
the name `battery_stats` ends in `_stats`, so the generic tuple rule
captures it first and the dedicated `elif name == "battery_stats"` branch
(which would produce `battery_min_voltage_v` / `battery_max_current_a`)
is unreachable. -/
theorem c1_battery_keys_bug :
    ((compute_metrics { messages := [("BATTERY_STATUS",
        [("voltages", [3800]), ("current_battery", [1500])])] }).map Prod.fst =
      ["battery_min", "battery_max"]) ∧
    "battery_min_voltage_v" ∉ (compute_metrics { messages := [("BATTERY_STATUS",
        [("voltages", [3800]), ("current_battery", [1500])])] }).map Prod.fst ∧
    "battery_max_current_a" ∉ (compute_metrics { messages := [("BATTERY_STATUS",
        [("voltages", [3800]), ("current_battery", [1500])])] }).map Prod.fst := by
  have hbs : battery_stats { messages := [("BATTERY_STATUS",
      [("voltages", [3800]), ("current_battery", [1500])])] } =
      .val (some (qmin [(3800 : ℚ) / 1000], NumV.q (qmax [(1500 : ℚ) / 100]))) := rfl
  have hend : strEndsWith "battery_stats" "_stats" = true := by decide
  have hrep : strReplace "battery_stats" "_stats" "" = "battery" := by decide
  have h : (compute_metrics { messages := [("BATTERY_STATUS",
      [("voltages", [3800]), ("current_battery", [1500])])] }).map Prod.fst =
      ["battery_min", "battery_max"] := by
    simp only [compute_metrics, METRIC_FUNCS, List.foldl_cons, List.foldl_nil]
    norm_num only [hbs]
    simp only [show flight_duration { messages := [("BATTERY_STATUS",
        [("voltages", [3800]), ("current_battery", [1500])])] } = none from rfl,
      show altitude_stats { messages := [("BATTERY_STATUS",
        [("voltages", [3800]), ("current_battery", [1500])])] } = none from rfl,
      show max_climb_rate { messages := [("BATTERY_STATUS",
        [("voltages", [3800]), ("current_battery", [1500])])] } = .val none from rfl,
      show max_descent_rate { messages := [("BATTERY_STATUS",
        [("voltages", [3800]), ("current_battery", [1500])])] } = .val none from rfl,
      show groundspeed_stats { messages := [("BATTERY_STATUS",
        [("voltages", [3800]), ("current_battery", [1500])])] } = .val none from rfl,
      show distance_travelled_2d { messages := [("BATTERY_STATUS",
        [("voltages", [3800]), ("current_battery", [1500])])] } = .val none from rfl,
      show distance_travelled_3d { messages := [("BATTERY_STATUS",
        [("voltages", [3800]), ("current_battery", [1500])])] } = .val none from rfl,
      show satellite_visibility_stats { messages := [("BATTERY_STATUS",
        [("voltages", [3800]), ("current_battery", [1500])])] } = .val none from rfl,
      show attitude_stats { messages := [("BATTERY_STATUS",
        [("voltages", [3800]), ("current_battery", [1500])])] } = none from rfl,
      hbs, flattenOne, hend, hrep]
    decide
  refine ⟨h, ?_, ?_⟩ <;> rw [h] <;> decide

/-- C6 (code bug): `highlight_anomalies` raises an uncaught numpy
broadcast `ValueError` when the `VIBRATION` component sequences have
incompatible lengths (here 3 vs 2), instead of tolerating the mismatch;
the exception escapes through `analyse_query` to the `/chat` route. -/
theorem c6_vibration_mismatch_crash :
    highlight_anomalies { messages := [("VIBRATION",
      [("vibration_x", [0, 0, 40]), ("vibration_y", [0, 0]),
       ("vibration_z", [0, 0])])] } = .exc := rfl

/-- C2 is false on the code: with `BATTERY_STATUS.voltages` present but
empty, `battery_stats` raises (`np.nanmin` of a zero-size array), and with
`GPS_RAW_INT.satellites_visible` present but empty,
`satellite_visibility_stats` raises (`.min()` of a zero-size array) —
exactly the two functions the claim singles out as returning `None` on an
empty sequence. -/
theorem c2_counterexample :
    battery_stats { messages := [("BATTERY_STATUS", [("voltages", [])])] } = .exc ∧
    satellite_visibility_stats
      { messages := [("GPS_RAW_INT", [("satellites_visible", [])])] } = .exc := by
  constructor
  · simp [battery_stats, get_msg, alookup]
  · simp [satellite_visibility_stats, get_msg, alookup]

/-- C8 is false on the code at the spec's own example: on
`[0,0,0,0,0,100]` the z-score scan flags **nothing** — the outlier's
z-score is `√5 ≈ 2.236`, below the 2.5 threshold (and the five zero
entries score lower still). -/
theorem c8_counterexample :
    z_outliers "position.alt" [0, 0, 0, 0, 0, 100] (5 / 2) = [] := by
  have hmu : qmean [0, 0, 0, 0, 0, 100] = 50 / 3 := by
    norm_num [qmean]
  have hv : qvar [0, 0, 0, 0, 0, 100] = 12500 / 9 := by
    simp only [qvar, hmu]
    norm_num [qmean]
  rw [z_outliers]
  simp only [List.length_cons, List.length_nil]
  rw [if_neg (by omega)]
  rw [List.filterMap_eq_nil_iff]
  intro idx hidx
  simp only [List.mem_range] at hidx
  simp only [hmu, hv]
  interval_cases idx <;>
    · rw [if_neg]
      norm_num [zGtQ, zEps]
      intro _
      rw [abs_of_nonneg (by norm_num)]
      norm_num

/-- C5 is false on the code: `/analysis` computes the metrics from the
*extracted* structure, not the raw inbound telemetry.  With telemetry
carrying GPS data and an external ranking that returns no path above the
similarity floor, the endpoint's metrics table is empty while
`compute_metrics` on the raw telemetry is not. -/
theorem c5_counterexample :
    analysis_endpoint
      { messages := [("GPS_RAW_INT", [("satellites_visible", [4, 4, 4])])] } [] =
      .val ([], { messages := [] }) ∧
    (compute_metrics
      { messages := [("GPS_RAW_INT", [("satellites_visible", [4, 4, 4])])] }).map Prod.fst =
      ["satellite_visibility"] ∧
    compute_metrics
      { messages := [("GPS_RAW_INT", [("satellites_visible", [4, 4, 4])])] } ≠ [] := by
  refine ⟨rfl, rfl, ?_⟩
  intro h
  have h2 := congrArg (List.map Prod.fst) h
  rw [show (compute_metrics
      { messages := [("GPS_RAW_INT", [("satellites_visible", [4, 4, 4])])] }).map Prod.fst =
      ["satellite_visibility"] from rfl] at h2
  exact List.cons_ne_nil _ _ h2

/-- Every flag produced by the z-score scan carries pattern `z-score`. -/
theorem z_outliers_pattern (name : String) (xs : List ℚ) (t : ℚ) :
    ∀ f ∈ z_outliers name xs t, f.pattern = "z-score" := by
  intro f hf
  unfold z_outliers at hf
  split at hf
  · simp at hf
  · obtain ⟨i, _, hi⟩ := List.mem_filterMap.mp hf
    split at hi
    · cases hi; rfl
    · cases hi

/-- Every flag produced by the attitude scan carries pattern `z-score`. -/
theorem attitudeFlags_pattern (msgs : List (String × MsgFields)) :
    ∀ f ∈ attitudeFlags msgs, f.pattern = "z-score" := by
  intro f hf
  unfold attitudeFlags at hf
  split at hf
  · simp at hf
  · obtain ⟨ax, _, hax⟩ := List.mem_flatMap.mp hf
    split at hax
    · simp at hax
    · exact z_outliers_pattern _ _ _ f hax

/-- Every flag produced by the position scan carries pattern `z-score`. -/
theorem positionFlags_pattern (msgs : List (String × MsgFields)) :
    ∀ f ∈ positionFlags msgs, f.pattern = "z-score" := by
  intro f hf
  unfold positionFlags at hf
  split at hf
  · simp at hf
  · obtain ⟨ax, _, hax⟩ := List.mem_flatMap.mp hf
    split at hax
    · simp at hax
    · exact z_outliers_pattern _ _ _ f hax

/-- Every flag produced by the battery-sag scan carries pattern
`voltage_sag`. -/
theorem batteryFlags_pattern (msgs : List (String × MsgFields)) :
    ∀ f ∈ batteryFlags msgs, f.pattern = "voltage_sag" := by
  intro f hf
  unfold batteryFlags at hf
  split at hf
  · simp at hf
  · split at hf
    · simp at hf
    · obtain ⟨i, _, hi⟩ := List.mem_filterMap.mp hf
      split at hi
      · cases hi; rfl
      · cases hi

/-- Every flag produced by the GPS scan carries pattern
`low_satellites`. -/
theorem gpsFlags_pattern (msgs : List (String × MsgFields)) :
    ∀ f ∈ gpsFlags msgs, f.pattern = "low_satellites" := by
  intro f hf
  unfold gpsFlags at hf
  split at hf
  · simp at hf
  · split at hf
    · simp at hf
    · obtain ⟨i, _, hi⟩ := List.mem_filterMap.mp hf
      split at hi
      · cases hi; rfl
      · cases hi

/-- C9: the low-satellite detector flags exactly the samples of
`GPS_RAW_INT.satellites_visible` strictly below 6, as `low_satellites`
flags carrying the positional index (no other scan contributes that
pattern), and on `[8,8,3,8]` the whole detector output is exactly one
`low_satellites` flag with index 2 and value 3.  (The `VIBRATION`-absent
hypothesis rules out the one scan that can raise, so the detector
returns.) -/
theorem c9_low_satellites :
    (∀ (tele : Tele) (g : MsgFields) (sats : List ℚ),
      alookup tele.messages "GPS_RAW_INT" = some g →
      alookup g "satellites_visible" = some sats →
      alookup tele.messages "VIBRATION" = none →
      ∃ flags, highlight_anomalies tele = .val flags ∧
        flags.filter (fun f => f.pattern = "low_satellites") = gpsFlags tele.messages ∧
        (∀ i < sats.length,
          ((∃ f ∈ gpsFlags tele.messages, f.index = i) ↔ sats.getD i 0 < 6))) ∧
    (∃ f, highlight_anomalies
        { messages := [("GPS_RAW_INT", [("satellites_visible", [8, 8, 3, 8])])] } =
          .val [f] ∧
      f.feature = "gps.satellites_visible" ∧ f.index = 2 ∧
      f.value = NumV.q 3 ∧ f.pattern = "low_satellites") := by
  constructor
  · intro tele g sats hg hs hv
    refine ⟨attitudeFlags tele.messages ++ positionFlags tele.messages ++
      gpsFlags tele.messages ++ batteryFlags tele.messages, ?_, ?_, ?_⟩
    · simp [highlight_anomalies, hv]
    · have ha : (attitudeFlags tele.messages).filter
          (fun f => f.pattern = "low_satellites") = [] :=
        List.filter_eq_nil_iff.mpr fun f hf => by
          simp [attitudeFlags_pattern tele.messages f hf]
      have hp : (positionFlags tele.messages).filter
          (fun f => f.pattern = "low_satellites") = [] :=
        List.filter_eq_nil_iff.mpr fun f hf => by
          simp [positionFlags_pattern tele.messages f hf]
      have hb : (batteryFlags tele.messages).filter
          (fun f => f.pattern = "low_satellites") = [] :=
        List.filter_eq_nil_iff.mpr fun f hf => by
          simp [batteryFlags_pattern tele.messages f hf]
      have hgp : (gpsFlags tele.messages).filter
          (fun f => f.pattern = "low_satellites") = gpsFlags tele.messages :=
        List.filter_eq_self.mpr fun f hf => by
          simp [gpsFlags_pattern tele.messages f hf]
      simp [List.filter_append, ha, hp, hb, hgp]
    · intro i hi
      constructor
      · rintro ⟨f, hf, hidx⟩
        simp only [gpsFlags, hg, hs] at hf
        obtain ⟨j, hjr, hj⟩ := List.mem_filterMap.mp hf
        split at hj
        · cases hj
          subst hidx
          assumption
        · cases hj
      · intro hcond
        simp only [gpsFlags, hg, hs]
        refine ⟨{ feature := "gps.satellites_visible", index := i,
                  value := NumV.q ((ratTrunc (sats.getD i 0) : ℤ) : ℚ),
                  pattern := "low_satellites",
                  hint := s!"Only satellites at index {i}; GPS may be unreliable" },
          List.mem_filterMap.mpr ⟨i, List.mem_range.mpr hi, ?_⟩, rfl⟩
        rw [if_pos hcond]
  · exact ⟨_, rfl, rfl, rfl, by decide, rfl⟩

/-- Witness for C9 at the spec's end-to-end telemetry. -/
theorem c9_witness :
    alookup ({ messages :=
        [("GPS_RAW_INT", [("satellites_visible", [8, 8, 3, 8])])] } : Tele).messages
      "GPS_RAW_INT" = some [("satellites_visible", [8, 8, 3, 8])] ∧
    (∃ flags, highlight_anomalies
        { messages := [("GPS_RAW_INT", [("satellites_visible", [8, 8, 3, 8])])] } =
          .val flags ∧
      flags.filter (fun f => f.pattern = "low_satellites") =
        gpsFlags [("GPS_RAW_INT", [("satellites_visible", [8, 8, 3, 8])])] ∧
      (∀ i < ([8, 8, 3, 8] : List ℚ).length,
        ((∃ f ∈ gpsFlags [("GPS_RAW_INT", [("satellites_visible", [8, 8, 3, 8])])],
          f.index = i) ↔ ([8, 8, 3, 8] : List ℚ).getD i 0 < 6))) :=
  ⟨rfl, c9_low_satellites.1
    { messages := [("GPS_RAW_INT", [("satellites_visible", [8, 8, 3, 8])])] }
    [("satellites_visible", [8, 8, 3, 8])] [8, 8, 3, 8] rfl rfl rfl⟩

/-- C2 amended: each metric-library function fails soft — returns `None` —
when its message type or field key is missing (shown per function; the
aggregator-wide containment is C7); **but** when the referenced sequence
is present and empty, `battery_stats` and `satellite_visibility_stats`
raise (numpy reductions over zero-size arrays) instead of returning
`None`.  The exception escapes the helper itself; `compute_metrics`'s
per-metric `try/except` recovers it and silently drops the metric, so the
aggregate on such telemetry is produced without those keys (final
conjunct: empty on a telemetry holding only the two empty sequences). -/
theorem c2_fail_soft_amended (tele : Tele) :
    (get_msg tele "BATTERY_STATUS" = none → battery_stats tele = .val none) ∧
    (∀ b, get_msg tele "BATTERY_STATUS" = some b → alookup b "voltages" = none →
      battery_stats tele = .val none) ∧
    (∀ b, get_msg tele "BATTERY_STATUS" = some b → alookup b "voltages" = some [] →
      battery_stats tele = .exc) ∧
    (get_msg tele "GPS_RAW_INT" = none → satellite_visibility_stats tele = .val none) ∧
    (∀ g, get_msg tele "GPS_RAW_INT" = some g → alookup g "satellites_visible" = none →
      satellite_visibility_stats tele = .val none) ∧
    (∀ g, get_msg tele "GPS_RAW_INT" = some g → alookup g "satellites_visible" = some [] →
      satellite_visibility_stats tele = .exc) ∧
    (get_msg tele "SYSTEM_TIME" = none → get_msg tele "GLOBAL_POSITION_INT" = none →
      time_vector tele = none ∧ flight_duration tele = none) ∧
    (get_msg tele "GLOBAL_POSITION_INT" = none →
      altitude_stats tele = none ∧ groundspeed_stats tele = .val none ∧
      distance_travelled_2d tele = .val none ∧ distance_travelled_3d tele = .val none) ∧
    (get_msg tele "ATTITUDE" = none → attitude_stats tele = none) ∧
    compute_metrics { messages := [("BATTERY_STATUS", [("voltages", []),
        ("current_battery", [])]), ("GPS_RAW_INT", [("satellites_visible", [])])] } =
      [] := by
  refine ⟨?_, ?_, ?_, ?_, ?_, ?_, ?_, ?_, ?_, ?_⟩
  · intro h; simp [battery_stats, h]
  · intro b hb hv; simp [battery_stats, hb, hv]
  · intro b hb hv; simp [battery_stats, hb, hv]
  · intro h; simp [satellite_visibility_stats, h]
  · intro g hg hs; simp [satellite_visibility_stats, hg, hs]
  · intro g hg hs; simp [satellite_visibility_stats, hg, hs]
  · intro h1 h2
    have ht : time_vector tele = none := by simp [time_vector, time_from, h1, h2]
    exact ⟨ht, by simp [flight_duration, ht]⟩
  · intro h
    refine ⟨?_, ?_, ?_, ?_⟩
    · simp [altitude_stats, altitude_vector, h]
    · simp [groundspeed_stats, groundspeed_vector, velocity_vectors, h]
    · simp [distance_travelled_2d, groundspeed_vector, velocity_vectors, h]
    · simp [distance_travelled_3d, velocity_vectors, h]
  · intro h; simp [attitude_stats, h]
  · rfl

/-- Witness for C2's amended statement: the missing-key cases at the empty
telemetry and the raising empty-sequence cases at a telemetry whose
battery-voltage and satellite sequences are present but empty. -/
theorem c2_witness :
    get_msg { messages := [] } "BATTERY_STATUS" = none ∧
    battery_stats { messages := [] } = .val none ∧
    attitude_stats { messages := [] } = none ∧
    get_msg { messages := [("BATTERY_STATUS", [("voltages", [])]),
        ("GPS_RAW_INT", [("satellites_visible", [])])] } "BATTERY_STATUS" =
      some [("voltages", [])] ∧
    battery_stats { messages := [("BATTERY_STATUS", [("voltages", [])]),
      ("GPS_RAW_INT", [("satellites_visible", [])])] } = .exc ∧
    satellite_visibility_stats { messages := [("BATTERY_STATUS", [("voltages", [])]),
      ("GPS_RAW_INT", [("satellites_visible", [])])] } = .exc :=
  ⟨rfl,
   (c2_fail_soft_amended { messages := [] }).1 rfl,
   (c2_fail_soft_amended { messages := [] }).2.2.2.2.2.2.2.2.1 rfl,
   rfl,
   (c2_fail_soft_amended { messages := [("BATTERY_STATUS", [("voltages", [])]),
      ("GPS_RAW_INT", [("satellites_visible", [])])] }).2.2.1 [("voltages", [])] rfl rfl,
   (c2_fail_soft_amended { messages := [("BATTERY_STATUS", [("voltages", [])]),
      ("GPS_RAW_INT", [("satellites_visible", [])])] }).2.2.2.2.2.1
      [("satellites_visible", [])] rfl rfl⟩

/-- The variance is nonnegative. -/
theorem qvar_nonneg (l : List ℚ) : 0 ≤ qvar l := by
  unfold qvar qmean
  apply div_nonneg
  · apply List.sum_nonneg
    intro x hx
    obtain ⟨y, _, rfl⟩ := List.mem_map.mp hx
    positivity
  · exact Nat.cast_nonneg _

/-- Faithfulness of the rational z-score test: for `a, v, t ≥ 0`,
`zGtQ t a v` decides exactly the real inequality
`a / (√v + ε) > t` that the Python code evaluates. -/
theorem zGtQ_correct (t a v : ℚ) (ha : 0 ≤ a) (hv : 0 ≤ v) (ht : 0 ≤ t) :
    zGtQ t a v = true ↔
      (t : ℝ) < (a : ℝ) / (Real.sqrt (v : ℝ) + ((zEps : ℚ) : ℝ)) := by
  have hvr : (0 : ℝ) ≤ (v : ℝ) := by exact_mod_cast hv
  have htr : (0 : ℝ) ≤ (t : ℝ) := by exact_mod_cast ht
  have hs : (0 : ℝ) ≤ Real.sqrt (v : ℝ) := Real.sqrt_nonneg _
  have hsq : Real.sqrt (v : ℝ) ^ 2 = (v : ℝ) := Real.sq_sqrt hvr
  have heps : ((zEps : ℚ) : ℝ) = 1 / 1000000 := by norm_num [zEps]
  have hd : (0 : ℝ) < Real.sqrt (v : ℝ) + ((zEps : ℚ) : ℝ) := by
    rw [heps]; positivity
  have hts0 : (0 : ℝ) ≤ (t : ℝ) * Real.sqrt (v : ℝ) := mul_nonneg htr hs
  rw [lt_div_iff hd]
  unfold zGtQ
  rw [Bool.and_eq_true, decide_eq_true_eq, decide_eq_true_eq]
  constructor
  · rintro ⟨h1, h2⟩
    have h1r : (0 : ℝ) < (a : ℝ) - (t : ℝ) * ((zEps : ℚ) : ℝ) := by
      exact_mod_cast h1
    have h2r : (t : ℝ) ^ 2 * (v : ℝ) <
        ((a : ℝ) - (t : ℝ) * ((zEps : ℚ) : ℝ)) ^ 2 := by exact_mod_cast h2
    have hfac : (0 : ℝ) <
        (((a : ℝ) - (t : ℝ) * ((zEps : ℚ) : ℝ)) - (t : ℝ) * Real.sqrt (v : ℝ)) *
        (((a : ℝ) - (t : ℝ) * ((zEps : ℚ) : ℝ)) + (t : ℝ) * Real.sqrt (v : ℝ)) := by
      nlinarith [hsq, h2r]
    have hlt : (t : ℝ) * Real.sqrt (v : ℝ) <
        (a : ℝ) - (t : ℝ) * ((zEps : ℚ) : ℝ) := by nlinarith [hfac, h1r, hts0]
    nlinarith [hlt]
  · intro h
    have hts : (t : ℝ) * Real.sqrt (v : ℝ) <
        (a : ℝ) - (t : ℝ) * ((zEps : ℚ) : ℝ) := by nlinarith
    have h1r : (0 : ℝ) < (a : ℝ) - (t : ℝ) * ((zEps : ℚ) : ℝ) :=
      lt_of_le_of_lt hts0 hts
    have hfac : (0 : ℝ) <
        (((a : ℝ) - (t : ℝ) * ((zEps : ℚ) : ℝ)) - (t : ℝ) * Real.sqrt (v : ℝ)) *
        (((a : ℝ) - (t : ℝ) * ((zEps : ℚ) : ℝ)) + (t : ℝ) * Real.sqrt (v : ℝ)) :=
      mul_pos (by linarith) (by linarith)
    have h2r : (t : ℝ) ^ 2 * (v : ℝ) <
        ((a : ℝ) - (t : ℝ) * ((zEps : ℚ) : ℝ)) ^ 2 := by nlinarith [hfac, hsq]
    constructor
    · exact_mod_cast h1r
    · exact_mod_cast h2r

/-- The z-score scan flags nothing on the spec's example sequence
`[0,0,0,0,0,100]`: the outlier's z-score is `√5 ≈ 2.236 < 2.5`. -/
theorem z_outliers_example_empty (name : String) :
    z_outliers name [0, 0, 0, 0, 0, 100] (5 / 2) = [] := by
  have hmu : qmean [0, 0, 0, 0, 0, 100] = 50 / 3 := by
    norm_num [qmean]
  have hv : qvar [0, 0, 0, 0, 0, 100] = 12500 / 9 := by
    simp only [qvar, hmu]
    norm_num [qmean]
  rw [z_outliers]
  simp only [List.length_cons, List.length_nil]
  rw [if_neg (by omega)]
  rw [List.filterMap_eq_nil_iff]
  intro idx hidx
  simp only [List.mem_range] at hidx
  simp only [hmu, hv]
  interval_cases idx <;>
    · rw [if_neg]
      norm_num [zGtQ, zEps]
      intro _
      rw [abs_of_nonneg (by norm_num)]
      norm_num

/-- C8 amended: the z-score scan flags nothing below 5 samples, and with
at least 5 samples it flags exactly the indices whose
`|x - mean| / (√variance + 1e-6)` exceeds 2.5 over the reals — but on the
sequence `[0,0,0,0,0,100]` it flags **no** index (not index 5): the
largest z-score there is `√5 ≈ 2.236`. -/
theorem c8_zscore_amended :
    (∀ (name : String) (xs : List ℚ), xs.length < 5 →
      z_outliers name xs (5 / 2) = []) ∧
    (∀ (name : String) (xs : List ℚ), 5 ≤ xs.length → ∀ i < xs.length,
      ((∃ f ∈ z_outliers name xs (5 / 2), f.index = i) ↔
        (5 / 2 : ℝ) < |((xs.getD i 0 : ℚ) : ℝ) - ((qmean xs : ℚ) : ℝ)| /
          (Real.sqrt ((qvar xs : ℚ) : ℝ) + ((zEps : ℚ) : ℝ)))) ∧
    (∀ name : String, z_outliers name [0, 0, 0, 0, 0, 100] (5 / 2) = []) := by
  refine ⟨?_, ?_, z_outliers_example_empty⟩
  · intro name xs h
    simp [z_outliers, h]
  · intro name xs h5 i hi
    have hgt := zGtQ_correct (5 / 2) |xs.getD i 0 - qmean xs| (qvar xs)
      (abs_nonneg _) (qvar_nonneg xs) (by norm_num)
    have hcast : ((|xs.getD i 0 - qmean xs| : ℚ) : ℝ) =
        |((xs.getD i 0 : ℚ) : ℝ) - ((qmean xs : ℚ) : ℝ)| := by push_cast; ring_nf
    rw [hcast] at hgt
    have h52 : ((5 / 2 : ℚ) : ℝ) = (5 / 2 : ℝ) := by norm_num
    rw [h52] at hgt
    rw [z_outliers, if_neg (not_lt.mpr h5)]
    constructor
    · rintro ⟨f, hf, hidx⟩
      obtain ⟨j, hjr, hj⟩ := List.mem_filterMap.mp hf
      split at hj
      · cases hj
        subst hidx
        exact (hgt.mp (by assumption))
      · cases hj
    · intro hcond
      refine ⟨{ feature := name, index := i, value := NumV.q (xs.getD i 0),
                pattern := "z-score",
                hint := s!"Unusual {name} value at index {i}" },
        List.mem_filterMap.mpr ⟨i, List.mem_range.mpr hi, ?_⟩, rfl⟩
      rw [if_pos (hgt.mpr hcond)]

/-- Witness for C8's amended statement: the short-channel case at a
3-sample channel and the characterization instantiated on the example
sequence at index 5. -/
theorem c8_witness :
    (([0, 0, 0] : List ℚ).length < 5 ∧ z_outliers "w" [0, 0, 0] (5 / 2) = []) ∧
    (5 ≤ ([0, 0, 0, 0, 0, 100] : List ℚ).length ∧
      5 < ([0, 0, 0, 0, 0, 100] : List ℚ).length ∧
      ((∃ f ∈ z_outliers "w" [0, 0, 0, 0, 0, 100] (5 / 2), f.index = 5) ↔
        (5 / 2 : ℝ) < |((([0, 0, 0, 0, 0, 100] : List ℚ).getD 5 0 : ℚ) : ℝ) -
            ((qmean [0, 0, 0, 0, 0, 100] : ℚ) : ℝ)| /
          (Real.sqrt ((qvar [0, 0, 0, 0, 0, 100] : ℚ) : ℝ) + ((zEps : ℚ) : ℝ)))) :=
  ⟨⟨by decide, c8_zscore_amended.1 "w" [0, 0, 0] (by decide)⟩,
   ⟨by decide, by decide,
    c8_zscore_amended.2.1 "w" [0, 0, 0, 0, 0, 100] (by decide) 5 (by decide)⟩⟩

/-- The fold of `compute_metrics` is the concatenation of the per-metric
contributions. -/
theorem compute_metrics_flatMap (tele : Tele) :
    compute_metrics tele =
      METRIC_FUNCS.flatMap fun nf => flatResult nf.1 (nf.2 tele) := by
  have hgen : ∀ (fns : List (String × (Tele → PyResult (Option PyVal))))
      (acc : List (String × PyVal)),
      fns.foldl (fun results nf =>
        match nf.2 tele with
        | .exc => results
        | .val none => results
        | .val (some v) => results ++ flattenOne nf.1 v) acc =
      acc ++ fns.flatMap (fun nf => flatResult nf.1 (nf.2 tele)) := by
    intro fns
    induction fns with
    | nil => intro acc; simp
    | cons nf rest ih =>
        intro acc
        rcases h : nf.2 tele with v | _
        · rcases v with _ | v <;>
            simp [List.foldl_cons, h, ih, flatResult, List.flatMap_cons]
        · simp [List.foldl_cons, h, ih, flatResult, List.flatMap_cons]
  simpa using hgen METRIC_FUNCS []

/-- Keys produced by flattening a tuple-valued metric. -/
theorem flattenOne_tup_keys (name : String) (xs : List NumV) :
    ∀ k ∈ (flattenOne name (PyVal.tup xs)).map Prod.fst,
      k ∈ ([strReplace name "_stats" "" ++ "_min",
            strReplace name "_stats" "" ++ "_max",
            strReplace name "_stats" "" ++ "_mean",
            "battery_min_voltage_v", "battery_max_current_a", name] : List String) := by
  intro k hk
  simp only [flattenOne] at hk
  split at hk
  · split at hk <;> simp_all <;> tauto
  · split at hk
    · split at hk <;> simp_all <;> tauto
    · simp_all

/-- Keys produced by flattening a scalar-valued metric. -/
theorem flattenOne_num_keys (name : String) (x : NumV) :
    (flattenOne name (PyVal.num x)).map Prod.fst = [name] := rfl

/-- The axes of `attitude_stats` are among roll, pitch, yaw, and every
axis value is a 2-tuple. -/
theorem attitude_stats_axes (tele : Tele) (axes : List (String × (NumV × NumV))) :
    attitude_stats tele = some axes →
      ∀ kv ∈ axes, kv.1 ∈ (["roll", "pitch", "yaw"] : List String) := by
  intro h kv hkv
  unfold attitude_stats at h
  split at h
  · cases h
  · cases h
    obtain ⟨f, hf, hmap⟩ := List.mem_filterMap.mp hkv
    rcases ho : alookup _ f with _ | xs
    · rw [ho] at hmap; cases hmap
    · rw [ho] at hmap
      cases hmap
      exact hf

/-- Keys produced by flattening the attitude dict. -/
theorem flattenOne_attitude_keys (tele : Tele) (axes : List (String × (NumV × NumV)))
    (h : attitude_stats tele = some axes) :
    ∀ k ∈ (flattenOne "attitude_stats"
        (PyVal.pdict (axes.map fun kv => (kv.1, PyVal.tup [kv.2.1, kv.2.2])))).map Prod.fst,
      k ∈ (["roll_mean_deg", "roll_std_deg", "pitch_mean_deg", "pitch_std_deg",
            "yaw_mean_deg", "yaw_std_deg"] : List String) := by
  intro k hk
  simp only [flattenOne] at hk
  rw [List.map_flatMap] at hk
  obtain ⟨kv2, hkv2, hkk⟩ := List.mem_flatMap.mp hk
  obtain ⟨⟨kname, kpair⟩, hkv, rfl⟩ := List.mem_map.mp hkv2
  have hax := attitude_stats_axes tele axes h ⟨kname, kpair⟩ hkv
  simp only [List.mem_cons, List.not_mem_nil, or_false] at hax
  simp only [List.map_cons, List.map_nil, List.mem_cons,
    List.not_mem_nil, or_false] at hkk
  rcases hax with rfl | rfl | rfl <;> rcases hkk with rfl | rfl <;> simp

/-- Every key of `compute_metrics` comes from the metric of its name, and
its presence requires the corresponding message type: a key can only
appear when the message(s) its metric reads are present. -/
theorem compute_metrics_key_origin (tele : Tele) (k : String)
    (hk : k ∈ (compute_metrics tele).map Prod.fst) :
    k = "flight_duration_s" ∨
    (k ∈ (["altitude_min", "altitude_max", "altitude_mean", "max_climb_rate_mps",
        "max_descent_rate_mps", "groundspeed_min", "groundspeed_max", "groundspeed_mean",
        "distance_2d_m", "distance_3d_m"] : List String) ∧
      get_msg tele "GLOBAL_POSITION_INT" ≠ none) ∨
    (k ∈ (["battery_min", "battery_max"] : List String) ∧
      ∃ p, battery_stats tele = .val (some p)) ∨
    (k = "satellite_visibility" ∧ get_msg tele "GPS_RAW_INT" ≠ none) ∨
    (k ∈ (["roll_mean_deg", "roll_std_deg", "pitch_mean_deg", "pitch_std_deg",
        "yaw_mean_deg", "yaw_std_deg"] : List String) ∧
      get_msg tele "ATTITUDE" ≠ none) := by
  rw [compute_metrics_flatMap, List.map_flatMap] at hk
  obtain ⟨nf, hnf, hkseg⟩ := List.mem_flatMap.mp hk
  simp only [METRIC_FUNCS, List.mem_cons, List.not_mem_nil, or_false] at hnf
  rcases hnf with rfl | rfl | rfl | rfl | rfl | rfl | rfl | rfl | rfl | rfl
  · -- flight_duration_s
    rcases h : flight_duration tele with _ | d
    · simp [flatResult, h] at hkseg
    · simp [flatResult, flattenOne, h] at hkseg
      exact Or.inl hkseg
  · -- altitude_stats
    rcases h : altitude_stats tele with _ | s
    · simp [flatResult, h] at hkseg
    · have hg : get_msg tele "GLOBAL_POSITION_INT" ≠ none := by
        intro hgn
        simp [altitude_stats, altitude_vector, hgn] at h
      simp only [flatResult, flattenOne, h, Option.map_some',
        show strEndsWith "altitude_stats" "_stats" = true from by decide, if_true,
        show strReplace "altitude_stats" "_stats" "" = "altitude" from by decide] at hkseg
      refine Or.inr (Or.inl ⟨?_, hg⟩)
      simp only [List.map_cons, List.map_nil, List.mem_cons, List.not_mem_nil,
        or_false] at hkseg
      simp only [List.mem_cons]
      tauto
  · -- max_climb_rate_mps
    rcases h : max_climb_rate tele with v | _
    · rcases v with _ | r
      · simp [flatResult, h] at hkseg
      · have hg : get_msg tele "GLOBAL_POSITION_INT" ≠ none := by
          intro hgn
          simp [max_climb_rate, vertical_speed_vector, altitude_vector, hgn] at h
        simp [flatResult, flattenOne, h] at hkseg
        refine Or.inr (Or.inl ⟨?_, hg⟩)
        simp [hkseg]
    · simp [flatResult, h] at hkseg
  · -- max_descent_rate_mps
    rcases h : max_descent_rate tele with v | _
    · rcases v with _ | r
      · simp [flatResult, h] at hkseg
      · have hg : get_msg tele "GLOBAL_POSITION_INT" ≠ none := by
          intro hgn
          simp [max_descent_rate, vertical_speed_vector, altitude_vector, hgn] at h
        simp [flatResult, flattenOne, h] at hkseg
        refine Or.inr (Or.inl ⟨?_, hg⟩)
        simp [hkseg]
    · simp [flatResult, h] at hkseg
  · -- groundspeed_stats
    rcases h : groundspeed_stats tele with v | _
    · rcases v with _ | s
      · simp [flatResult, h] at hkseg
      · have hg : get_msg tele "GLOBAL_POSITION_INT" ≠ none := by
          intro hgn
          simp [groundspeed_stats, groundspeed_vector, velocity_vectors, hgn] at h
        simp only [flatResult, flattenOne, h, Option.map_some',
          show strEndsWith "groundspeed_stats" "_stats" = true from by decide, if_true,
          show strReplace "groundspeed_stats" "_stats" "" = "groundspeed" from by decide] at hkseg
        refine Or.inr (Or.inl ⟨?_, hg⟩)
        simp only [List.map_cons, List.map_nil, List.mem_cons, List.not_mem_nil,
          or_false] at hkseg
        simp only [List.mem_cons]
        tauto
    · simp [flatResult, h] at hkseg
  · -- distance_2d_m
    rcases h : distance_travelled_2d tele with v | _
    · rcases v with _ | dv
      · simp [flatResult, h] at hkseg
      · have hg : get_msg tele "GLOBAL_POSITION_INT" ≠ none := by
          intro hgn
          simp [distance_travelled_2d, groundspeed_vector, velocity_vectors, hgn] at h
        simp [flatResult, flattenOne, h] at hkseg
        refine Or.inr (Or.inl ⟨?_, hg⟩)
        simp [hkseg]
    · simp [flatResult, h] at hkseg
  · -- distance_3d_m
    rcases h : distance_travelled_3d tele with v | _
    · rcases v with _ | dv
      · simp [flatResult, h] at hkseg
      · have hg : get_msg tele "GLOBAL_POSITION_INT" ≠ none := by
          intro hgn
          simp [distance_travelled_3d, velocity_vectors, hgn] at h
        simp [flatResult, flattenOne, h] at hkseg
        refine Or.inr (Or.inl ⟨?_, hg⟩)
        simp [hkseg]
    · simp [flatResult, h] at hkseg
  · -- battery_stats
    rcases h : battery_stats tele with v | _
    · rcases v with _ | p
      · simp [flatResult, h] at hkseg
      · simp only [flatResult, flattenOne, h, Option.map_some',
          show strEndsWith "battery_stats" "_stats" = true from by decide, if_true,
          show strReplace "battery_stats" "_stats" "" = "battery" from by decide] at hkseg
        refine Or.inr (Or.inr (Or.inl ⟨?_, p, rfl⟩))
        simp only [List.map_cons, List.map_nil, List.mem_cons, List.not_mem_nil,
          or_false] at hkseg
        simp only [List.mem_cons]
        tauto
    · simp [flatResult, h] at hkseg
  · -- satellite_visibility
    rcases h : satellite_visibility_stats tele with v | _
    · rcases v with _ | s
      · simp [flatResult, h] at hkseg
      · have hb : get_msg tele "GPS_RAW_INT" ≠ none := by
          intro hbn
          simp [satellite_visibility_stats, hbn] at h
        simp only [flatResult, flattenOne, h, Option.map_some',
          show strEndsWith "satellite_visibility" "_stats" = false from by decide,
          if_false, Bool.false_eq_true] at hkseg
        rw [if_neg (by decide : ¬ ("satellite_visibility" : String) = "battery_stats")] at hkseg
        simp only [List.map_cons, List.map_nil, List.mem_cons, List.not_mem_nil,
          or_false] at hkseg
        exact Or.inr (Or.inr (Or.inr (Or.inl ⟨hkseg, hb⟩)))
    · simp [flatResult, h] at hkseg
  · -- attitude_stats
    rcases h : attitude_stats tele with _ | axes
    · simp [flatResult, h] at hkseg
    · have ha : get_msg tele "ATTITUDE" ≠ none := by
        intro han
        simp [attitude_stats, han] at h
      simp only [flatResult, h, Option.map_some'] at hkseg
      exact Or.inr (Or.inr (Or.inr (Or.inr
        ⟨flattenOne_attitude_keys tele axes h k hkseg, ha⟩)))

/-- C7: for every telemetry tree missing a given message type, the metric
keys derived from that message type are absent from `compute_metrics`'s
output; a raising metric (battery on an empty sequence) is likewise merely
omitted — the aggregator catches it, and the model's `compute_metrics` is
a total function, so no exception escapes it for any input; and sibling
metrics are unaffected: every other metric function reads only its own
message types, so it is unchanged on any telemetry agreeing outside
`BATTERY_STATUS`. -/
theorem c7_missing_message_absent (tele : Tele) :
    (get_msg tele "BATTERY_STATUS" = none →
      "battery_min" ∉ (compute_metrics tele).map Prod.fst ∧
      "battery_max" ∉ (compute_metrics tele).map Prod.fst) ∧
    (get_msg tele "GPS_RAW_INT" = none →
      "satellite_visibility" ∉ (compute_metrics tele).map Prod.fst) ∧
    (get_msg tele "ATTITUDE" = none →
      ∀ k ∈ (["roll_mean_deg", "roll_std_deg", "pitch_mean_deg", "pitch_std_deg",
          "yaw_mean_deg", "yaw_std_deg"] : List String),
        k ∉ (compute_metrics tele).map Prod.fst) ∧
    (get_msg tele "GLOBAL_POSITION_INT" = none →
      ∀ k ∈ (["altitude_min", "altitude_max", "altitude_mean", "max_climb_rate_mps",
          "max_descent_rate_mps", "groundspeed_min", "groundspeed_max",
          "groundspeed_mean", "distance_2d_m", "distance_3d_m"] : List String),
        k ∉ (compute_metrics tele).map Prod.fst) ∧
    (battery_stats tele = .exc →
      "battery_min" ∉ (compute_metrics tele).map Prod.fst ∧
      "battery_max" ∉ (compute_metrics tele).map Prod.fst) ∧
    (∀ tele' : Tele,
      (∀ m, m ≠ "BATTERY_STATUS" → get_msg tele m = get_msg tele' m) →
      flight_duration tele = flight_duration tele' ∧
      altitude_stats tele = altitude_stats tele' ∧
      max_climb_rate tele = max_climb_rate tele' ∧
      max_descent_rate tele = max_descent_rate tele' ∧
      groundspeed_stats tele = groundspeed_stats tele' ∧
      distance_travelled_2d tele = distance_travelled_2d tele' ∧
      distance_travelled_3d tele = distance_travelled_3d tele' ∧
      satellite_visibility_stats tele = satellite_visibility_stats tele' ∧
      attitude_stats tele = attitude_stats tele') := by
  refine ⟨?_, ?_, ?_, ?_, ?_, ?_⟩
  · intro h
    have hnone : battery_stats tele = .val none := by simp [battery_stats, h]
    constructor <;>
      · intro hk
        rcases compute_metrics_key_origin tele _ hk with
          h1 | ⟨h1, _⟩ | ⟨_, p, hp⟩ | ⟨h1, _⟩ | ⟨h1, _⟩
        · simp at h1
        · simp at h1
        · simp [hnone] at hp
        · simp at h1
        · simp at h1
  · intro h hk
    rcases compute_metrics_key_origin tele _ hk with
      h1 | ⟨h1, _⟩ | ⟨h1, _, _⟩ | ⟨_, hg⟩ | ⟨h1, _⟩
    · simp at h1
    · simp at h1
    · simp at h1
    · exact hg h
    · simp at h1
  · intro h k hkl hk
    rcases compute_metrics_key_origin tele _ hk with
      h1 | ⟨h1, _⟩ | ⟨h1, _, _⟩ | ⟨h1, _⟩ | ⟨_, hg⟩
    · subst h1; revert hkl; decide
    · simp only [List.mem_cons, List.not_mem_nil, or_false] at h1
      rcases h1 with rfl | rfl | rfl | rfl | rfl | rfl | rfl | rfl | rfl | rfl <;>
        revert hkl <;> decide
    · simp only [List.mem_cons, List.not_mem_nil, or_false] at h1
      rcases h1 with rfl | rfl <;> revert hkl <;> decide
    · subst h1; revert hkl; decide
    · exact hg h
  · intro h k hkl hk
    rcases compute_metrics_key_origin tele _ hk with
      h1 | ⟨_, hg⟩ | ⟨h1, _, _⟩ | ⟨h1, _⟩ | ⟨h1, _⟩
    · subst h1; revert hkl; decide
    · exact hg h
    · simp only [List.mem_cons, List.not_mem_nil, or_false] at h1
      rcases h1 with rfl | rfl <;> revert hkl <;> decide
    · subst h1; revert hkl; decide
    · simp only [List.mem_cons, List.not_mem_nil, or_false] at h1
      rcases h1 with rfl | rfl | rfl | rfl | rfl | rfl <;> revert hkl <;> decide
  · intro h
    constructor <;>
      · intro hk
        rcases compute_metrics_key_origin tele _ hk with
          h1 | ⟨h1, _⟩ | ⟨_, p, hp⟩ | ⟨h1, _⟩ | ⟨h1, _⟩
        · simp at h1
        · simp at h1
        · rw [h] at hp; cases hp
        · simp at h1
        · simp at h1
  · intro tele' hEq
    have hS := hEq "SYSTEM_TIME" (by decide)
    have hG := hEq "GLOBAL_POSITION_INT" (by decide)
    have hGPS := hEq "GPS_RAW_INT" (by decide)
    have hA := hEq "ATTITUDE" (by decide)
    refine ⟨?_, ?_, ?_, ?_, ?_, ?_, ?_, ?_, ?_⟩
    · simp [flight_duration, time_vector, time_from, hS, hG]
    · simp [altitude_stats, altitude_vector, hG]
    · simp [max_climb_rate, vertical_speed_vector, altitude_vector,
        time_vector, time_from, hS, hG]
    · simp [max_descent_rate, vertical_speed_vector, altitude_vector,
        time_vector, time_from, hS, hG]
    · simp [groundspeed_stats, groundspeed_vector, velocity_vectors, hG]
    · simp [distance_travelled_2d, groundspeed_vector, velocity_vectors,
        time_vector, time_from, hS, hG]
    · simp [distance_travelled_3d, velocity_vectors, time_vector, time_from, hS, hG]
    · simp [satellite_visibility_stats, hGPS]
    · simp [attitude_stats, hA]

/-- Witness for C7 at the empty telemetry (and the sibling-stability part
instantiated with the telemetry itself). -/
theorem c7_witness :
    get_msg { messages := [] } "BATTERY_STATUS" = none ∧
    "battery_min" ∉ (compute_metrics { messages := [] }).map Prod.fst ∧
    "satellite_visibility" ∉ (compute_metrics { messages := [] }).map Prod.fst ∧
    flight_duration { messages := [] } = flight_duration { messages := [] } :=
  ⟨rfl,
   ((c7_missing_message_absent { messages := [] }).1 rfl).1,
   (c7_missing_message_absent { messages := [] }).2.1 rfl,
   ((c7_missing_message_absent { messages := [] }).2.2.2.2.2
     { messages := [] } (fun _ _ => rfl)).1⟩

/-- A successful prefix match is no longer than the scanned list. -/
theorem leadsWith_length {sep s : List Char} (h : leadsWith sep s = true) :
    sep.length ≤ s.length := by
  induction sep generalizing s with
  | nil => simp
  | cons a as ih =>
      cases s with
      | nil => simp [leadsWith] at h
      | cons b bs =>
          simp only [leadsWith, Bool.and_eq_true] at h
          simpa using ih h.2

/-- A list is a prefix of itself extended by anything. -/
theorem leadsWith_append_self (sep y : List Char) :
    leadsWith sep (sep ++ y) = true := by
  induction sep with
  | nil => rfl
  | cons a as ih => simpa [leadsWith] using ih

/-- If `sep` already fails to match within the first `s.length` characters,
appending more input cannot make it match. -/
theorem leadsWith_take_false {sep s : List Char}
    (h : leadsWith (sep.take s.length) s = false) (y : List Char) :
    leadsWith sep (s ++ y) = false := by
  induction sep generalizing s with
  | nil => cases s <;> simp [leadsWith] at h
  | cons a as ih =>
      cases s with
      | nil => simp [leadsWith] at h
      | cons b bs =>
          simp only [List.length_cons, List.take_succ_cons, leadsWith,
            Bool.and_eq_false_iff] at h ⊢
          rcases h with h | h
          · exact Or.inl h
          · exact Or.inr (ih h)

/-- No occurrence in the empty input (non-empty separator). -/
theorem firstOcc_nil {sep : List Char} (hsep : sep ≠ []) :
    firstOcc sep [] = none := by
  cases sep with
  | nil => exact absurd rfl hsep
  | cons a as => simp [firstOcc, leadsWith]

/-- An occurrence fits inside the input. -/
theorem firstOcc_some_le {sep s : List Char} {i : Nat}
    (h : firstOcc sep s = some i) : i + sep.length ≤ s.length := by
  induction s generalizing i with
  | nil =>
      unfold firstOcc at h
      split at h
      · cases h
        have hx := leadsWith_length (show leadsWith sep [] = true by assumption)
        omega
      · cases h
  | cons c rest ih =>
      unfold firstOcc at h
      split at h
      · cases h
        have hx := leadsWith_length
          (show leadsWith sep (c :: rest) = true by assumption)
        omega
      · rcases ho : firstOcc sep rest with _ | j
        · rw [ho] at h; cases h
        · rw [ho] at h
          cases h
          have := ih ho
          simp only [List.length_cons]
          omega

/-- The separator itself is found at position 0. -/
theorem firstOcc_self {sep : List Char} (hsep : sep ≠ []) (y : List Char) :
    firstOcc sep (sep ++ y) = some 0 := by
  cases sep with
  | nil => exact absurd rfl hsep
  | cons a as =>
      rw [List.cons_append]
      unfold firstOcc
      rw [if_pos (by rw [← List.cons_append]; exact leadsWith_append_self _ _)]

/-- Scanning past a stretch free of the separator's first character just
shifts the match position. -/
theorem firstOcc_append_free {sep : List Char} {c0 : Char} {sep' : List Char}
    (hsep : sep = c0 :: sep') (x y : List Char) (hx : ∀ c ∈ x, c ≠ c0) :
    firstOcc sep (x ++ y) = (firstOcc sep y).map (· + x.length) := by
  induction x with
  | nil =>
      rcases h : firstOcc sep y with _ | i <;> simp [h]
  | cons c xs ih =>
      have hc : c ≠ c0 := hx c (by simp)
      have hlw : leadsWith sep (c :: (xs ++ y)) = false := by
        rw [hsep]
        simp only [leadsWith, Bool.and_eq_false_iff]
        exact Or.inl (decide_eq_false fun hq => hc hq.symm)
      rw [List.cons_append]
      conv_lhs => rw [firstOcc]
      rw [if_neg (by simp [hlw])]
      rw [ih (fun d hd => hx d (by simp [hd]))]
      rcases h : firstOcc sep y with _ | i
      · simp [h]
      · simp only [h, Option.map_some', Option.some.injEq, List.length_cons]
        omega

/-- Scanning past a different tag `t = c0 :: t'` (whose tail is free of
`c0` and which `sep` fails to match) also just shifts the position. -/
theorem firstOcc_append_tag {sep : List Char} {c0 : Char} {sep' : List Char}
    (hsep : sep = c0 :: sep') (t' y : List Char) (ht' : ∀ c ∈ t', c ≠ c0)
    (hmm : leadsWith (sep'.take t'.length) t' = false) :
    firstOcc sep ((c0 :: t') ++ y) = (firstOcc sep y).map (· + (c0 :: t').length) := by
  have hlw : leadsWith sep (c0 :: (t' ++ y)) = false := by
    rw [hsep]
    simp only [leadsWith, Bool.and_eq_false_iff]
    exact Or.inr (leadsWith_take_false hmm y)
  rw [List.cons_append]
  conv_lhs => rw [firstOcc]
  rw [if_neg (by simp [hlw])]
  rw [firstOcc_append_free hsep t' y ht']
  rcases h : firstOcc sep y with _ | i
  · simp [h]
  · simp only [h, Option.map_some', Option.some.injEq, List.length_cons]
    omega

/-- The fuel of `pySplitF` is irrelevant once it exceeds the input
length. -/
theorem pySplitF_fuel {sep : List Char} (hsep : sep ≠ []) :
    ∀ (n m : Nat) (s : List Char), s.length < n → s.length < m →
      pySplitF sep n s = pySplitF sep m s := by
  intro n
  induction n with
  | zero => intro m s h; omega
  | succ n ih =>
      intro m s hn hm
      cases m with
      | zero => omega
      | succ m =>
          unfold pySplitF
          rcases h : firstOcc sep s with _ | i
          · rfl
          · have hle := firstOcc_some_le h
            have hsl : 0 < sep.length := List.length_pos.mpr hsep
            show s.take i :: pySplitF sep n (s.drop (i + sep.length)) =
              s.take i :: pySplitF sep m (s.drop (i + sep.length))
            rw [ih m (s.drop (i + sep.length))
              (by simp only [List.length_drop]; omega)
              (by simp only [List.length_drop]; omega)]

/-- The one-step unfolding of `pySplit`, fuel-free. -/
theorem pySplit_unfold {sep : List Char} (hsep : sep ≠ []) (s : List Char) :
    pySplit sep s =
      match firstOcc sep s with
      | none => [s]
      | some i => s.take i :: pySplit sep (s.drop (i + sep.length)) := by
  rcases h : firstOcc sep s with _ | i
  · show pySplit sep s = [s]
    unfold pySplit
    rw [if_neg hsep]
    unfold pySplitF
    simp only [h]
  · show pySplit sep s = s.take i :: pySplit sep (s.drop (i + sep.length))
    have hle := firstOcc_some_le h
    have hsl : 0 < sep.length := List.length_pos.mpr hsep
    have h1 : pySplit sep s =
        s.take i :: pySplitF sep s.length (s.drop (i + sep.length)) := by
      unfold pySplit
      rw [if_neg hsep]
      conv_lhs => unfold pySplitF
      simp only [h]
    have h2 : pySplit sep (s.drop (i + sep.length)) =
        pySplitF sep ((s.drop (i + sep.length)).length + 1) (s.drop (i + sep.length)) := by
      unfold pySplit
      rw [if_neg hsep]
    rw [h1, h2]
    rw [pySplitF_fuel hsep s.length ((s.drop (i + sep.length)).length + 1)
      (s.drop (i + sep.length))
      (by simp only [List.length_drop]; omega)
      (by simp only [List.length_drop]; omega)]

/-- No occurrence at all: the split is the whole input. -/
theorem pySplit_of_none {sep s : List Char} (hsep : sep ≠ [])
    (h : firstOcc sep s = none) : pySplit sep s = [s] := by
  rw [pySplit_unfold hsep]
  rw [h]

/-- When the leftmost occurrence is the explicit one after `x`, the split
peels `x` off. -/
theorem pySplit_cons_of_firstOcc {sep : List Char} (hsep : sep ≠ [])
    (x y : List Char) (h : firstOcc sep (x ++ sep ++ y) = some x.length) :
    pySplit sep (x ++ sep ++ y) = x :: pySplit sep y := by
  rw [pySplit_unfold hsep, h]
  show (x ++ sep ++ y).take x.length ::
      pySplit sep ((x ++ sep ++ y).drop (x.length + sep.length)) =
    x :: pySplit sep y
  have htake : (x ++ sep ++ y).take x.length = x := by
    rw [List.append_assoc, List.take_left]
  have hdrop : (x ++ sep ++ y).drop (x.length + sep.length) = y := by
    rw [show x.length + sep.length = (x ++ sep).length by simp]
    exact List.drop_left _ _
  rw [htake, hdrop]

/-- Python `in`: the separator is found when it sits at the front. -/
theorem pyContains_here {sep : List Char} (hsep : sep ≠ []) (y : List Char) :
    pyContains (sep ++ y) sep = true := by
  unfold pyContains
  rw [firstOcc_self hsep]
  rfl

/-- Python `in` is monotone under prepending input. -/
theorem pyContains_append_right (x : List Char) {y sub : List Char}
    (h : pyContains y sub = true) : pyContains (x ++ y) sub = true := by
  unfold pyContains at h ⊢
  induction x with
  | nil => simpa using h
  | cons c xs ih =>
      rw [List.cons_append]
      conv_lhs => rw [firstOcc]
      split
      · rfl
      · simpa [Option.isSome_map'] using ih

/-- Splitting an input made of two pieces joined by its only separator
occurrence. -/
theorem pySplit_pair {sep : List Char} (hsep : sep ≠ []) (x y : List Char)
    (hx : firstOcc sep (x ++ sep ++ y) = some x.length)
    (hy : firstOcc sep y = none) :
    pySplit sep (x ++ sep ++ y) = [x, y] := by
  rw [pySplit_cons_of_firstOcc hsep x y hx, pySplit_of_none hsep hy]

/-- `response.split(opener)[1].split(closer)[0]` recovers the enclosed
text when the opener's first occurrence introduces it, no later opener
occurs, and the closer's first occurrence in the remainder terminates
it. -/
theorem betweenTags_eq {opener closer : List Char} (ho : opener ≠ [])
    (hc : closer ≠ []) (x A z : List Char)
    (h1 : firstOcc opener (x ++ opener ++ (A ++ closer ++ z)) = some x.length)
    (h2 : firstOcc opener (A ++ closer ++ z) = none)
    (h3 : firstOcc closer (A ++ closer ++ z) = some A.length) :
    betweenTags opener closer (x ++ opener ++ (A ++ closer ++ z)) = A := by
  unfold betweenTags
  rw [pySplit_cons_of_firstOcc ho x _ h1, pySplit_of_none ho h2]
  simp only [List.getD_cons_succ, List.getD_cons_zero]
  rw [pySplit_cons_of_firstOcc hc A z h3]
  rfl

/-- The parser imposes no cap on the suggestion count: it returns exactly
one suggestion per non-blank line of the block. -/
theorem suggestionLines_length (block : List Char) :
    (suggestionLines block).length =
      ((pySplitlines (pyStrip block)).filter fun raw => !(pyStrip raw).isEmpty).length := by
  unfold suggestionLines
  induction pySplitlines (pyStrip block) with
  | nil => rfl
  | cons l ls ih =>
      rcases h : pyStrip l with _ | ⟨c, cs⟩
      · simpa [List.filterMap_cons, List.filter_cons, h] using ih
      · simpa [List.filterMap_cons, List.filter_cons, h] using ih

/-- C4 is false on the code: the parser caps nothing — a response whose
`<suggested_questions>` block has four numbered lines yields four
suggestions, not at most three. -/
theorem c4_counterexample :
    (process_response
      "<answer>ok</answer>\n<suggested_questions>\n1. a\n2. b\n3. c\n4. d\n</suggested_questions>").2.length = 4 ∧
    (process_response
      "<answer>ok</answer>\n<suggested_questions>\n1. a\n2. b\n3. c\n4. d\n</suggested_questions>").2 =
      ["a", "b", "c", "d"] ∧
    (process_response
      "<answer>ok</answer>\n<suggested_questions>\n1. a\n2. b\n3. c\n4. d\n</suggested_questions>").1 =
      "ok" := by
  refine ⟨?_, ?_, ?_⟩ <;> decide

/-- Tag-shift lemma restated so the tag appears as itself (rewritable
without pre-splitting it into head and tail). -/
theorem firstOcc_append_tagW {sep : List Char} {c0 : Char} {sep' : List Char}
    (hsep : sep = c0 :: sep') (t t' y : List Char) (ht : t = c0 :: t')
    (ht' : ∀ c ∈ t', c ≠ c0) (hmm : leadsWith (sep'.take t'.length) t' = false) :
    firstOcc sep (t ++ y) = (firstOcc sep y).map (· + t.length) := by
  subst ht
  exact firstOcc_append_tag hsep t' y ht' hmm

/-- A stretch with no occurrence of the tag head has no occurrence of the tag. -/
theorem firstOcc_free {sep : List Char} {c0 : Char} {sep' : List Char}
    (hsep : sep = c0 :: sep') (t : List Char) (ht : ∀ c ∈ t, c ≠ c0) :
    firstOcc sep t = none := by
  have h := firstOcc_append_free hsep t [] ht
  rw [List.append_nil] at h
  rw [h, firstOcc_nil (by simp [hsep])]
  rfl

/-- Full behaviour of the response parsing pipeline on a well-formed
response `P<answer>A</answer>Q<suggested_questions>L</suggested_questions>R`
whose free parts contain no `<`: the answer is the trimmed enclosed text
and the suggestions are all processed lines of the block — with no cap. -/
theorem process_response_tagged (P A Q L R : List Char)
    (hP : ∀ c ∈ P, c ≠ '<') (hA : ∀ c ∈ A, c ≠ '<') (hQ : ∀ c ∈ Q, c ≠ '<')
    (hL : ∀ c ∈ L, c ≠ '<') (hR : ∀ c ∈ R, c ≠ '<')
    (hstrip : pyStrip A ≠ []) :
    process_response (String.mk (P ++ "<answer>".data ++ A ++ "</answer>".data ++ Q ++
        "<suggested_questions>".data ++ L ++ "</suggested_questions>".data ++ R)) =
      (String.mk (pyStrip A), suggestionLines L) := by
  have hsepA : "<answer>".data = '<' :: "answer>".data := rfl
  have hsepAE : "</answer>".data = '<' :: "/answer>".data := rfl
  have hsepS : "<suggested_questions>".data = '<' :: "suggested_questions>".data := rfl
  have hsepSE : "</suggested_questions>".data = '<' :: "/suggested_questions>".data := rfl
  -- the chain of shift rewrites for the tail after the answer opener
  have hnA : ∀ z : List Char,
      firstOcc "<answer>".data (Q ++ ("<suggested_questions>".data ++
        (L ++ ("</suggested_questions>".data ++ z)))) =
      (firstOcc "<answer>".data z).map
        (· + (Q.length + ("<suggested_questions>".data.length +
          (L.length + "</suggested_questions>".data.length)))) := by
    intro z
    rw [firstOcc_append_free hsepA Q _ hQ,
      firstOcc_append_tagW hsepA "<suggested_questions>".data
        "suggested_questions>".data _ rfl (by decide) (by decide),
      firstOcc_append_free hsepA L _ hL,
      firstOcc_append_tagW hsepA "</suggested_questions>".data
        "/suggested_questions>".data _ rfl (by decide) (by decide)]
    rcases h : firstOcc "<answer>".data z with _ | i
    · rfl
    · simp only [Option.map_some', Option.some.injEq]
      omega
  have hz2none : firstOcc "<answer>".data
      ((A ++ "</answer>".data) ++ (Q ++ ("<suggested_questions>".data ++
        (L ++ ("</suggested_questions>".data ++ R))))) = none := by
    rw [show (A ++ "</answer>".data) ++ (Q ++ ("<suggested_questions>".data ++
        (L ++ ("</suggested_questions>".data ++ R)))) =
      A ++ ("</answer>".data ++ (Q ++ ("<suggested_questions>".data ++
        (L ++ ("</suggested_questions>".data ++ R))))) from by
        simp [List.append_assoc]]
    rw [firstOcc_append_free hsepA A _ hA,
      firstOcc_append_tagW hsepA "</answer>".data "/answer>".data _ rfl
        (by decide) (by decide)]
    rw [hnA R]
    rw [firstOcc_free hsepA R hR]
    rfl
  have hb1 : betweenTags "<answer>".data "</answer>".data
      (P ++ "<answer>".data ++ A ++ "</answer>".data ++ Q ++
        "<suggested_questions>".data ++ L ++ "</suggested_questions>".data ++ R) = A := by
    rw [show P ++ "<answer>".data ++ A ++ "</answer>".data ++ Q ++
        "<suggested_questions>".data ++ L ++ "</suggested_questions>".data ++ R =
      P ++ "<answer>".data ++ (A ++ "</answer>".data ++ (Q ++
        ("<suggested_questions>".data ++ (L ++ ("</suggested_questions>".data ++ R)))))
      from by simp [List.append_assoc]]
    refine betweenTags_eq (by decide) (by decide) P A _ ?_ ?_ ?_
    · rw [show P ++ "<answer>".data ++ (A ++ "</answer>".data ++ (Q ++
          ("<suggested_questions>".data ++ (L ++ ("</suggested_questions>".data ++ R))))) =
        P ++ ("<answer>".data ++ ((A ++ "</answer>".data) ++ (Q ++
          ("<suggested_questions>".data ++ (L ++ ("</suggested_questions>".data ++ R))))))
        from by simp [List.append_assoc]]
      rw [firstOcc_append_free hsepA P _ hP, firstOcc_self (by decide)]
      simp
    · exact hz2none
    · rw [show A ++ "</answer>".data ++ (Q ++ ("<suggested_questions>".data ++
          (L ++ ("</suggested_questions>".data ++ R)))) =
        A ++ ("</answer>".data ++ (Q ++ ("<suggested_questions>".data ++
          (L ++ ("</suggested_questions>".data ++ R))))) from by simp [List.append_assoc]]
      rw [firstOcc_append_free hsepAE A _ hA, firstOcc_self (by decide)]
      simp
  have hb2 : betweenTags "<suggested_questions>".data "</suggested_questions>".data
      (P ++ "<answer>".data ++ A ++ "</answer>".data ++ Q ++
        "<suggested_questions>".data ++ L ++ "</suggested_questions>".data ++ R) = L := by
    rw [show P ++ "<answer>".data ++ A ++ "</answer>".data ++ Q ++
        "<suggested_questions>".data ++ L ++ "</suggested_questions>".data ++ R =
      (P ++ "<answer>".data ++ A ++ "</answer>".data ++ Q) ++
        "<suggested_questions>".data ++ (L ++ "</suggested_questions>".data ++ R)
      from by simp [List.append_assoc]]
    refine betweenTags_eq (by decide) (by decide) _ L _ ?_ ?_ ?_
    · rw [show (P ++ "<answer>".data ++ A ++ "</answer>".data ++ Q) ++
          "<suggested_questions>".data ++ (L ++ "</suggested_questions>".data ++ R) =
        P ++ ("<answer>".data ++ (A ++ ("</answer>".data ++ (Q ++
          ("<suggested_questions>".data ++ ((L ++ "</suggested_questions>".data) ++ R))))))
        from by simp [List.append_assoc]]
      rw [firstOcc_append_free hsepS P _ hP,
        firstOcc_append_tagW hsepS "<answer>".data "answer>".data _ rfl
          (by decide) (by decide),
        firstOcc_append_free hsepS A _ hA,
        firstOcc_append_tagW hsepS "</answer>".data "/answer>".data _ rfl
          (by decide) (by decide),
        firstOcc_append_free hsepS Q _ hQ,
        firstOcc_self (by decide)]
      simp only [Option.map_some', Option.some.injEq, List.length_append]
      omega
    · rw [show (L ++ "</suggested_questions>".data) ++ R =
        L ++ ("</suggested_questions>".data ++ R) from by simp [List.append_assoc]]
      rw [firstOcc_append_free hsepS L _ hL,
        firstOcc_append_tagW hsepS "</suggested_questions>".data
          "/suggested_questions>".data _ rfl (by decide) (by decide),
        firstOcc_free hsepS R hR]
      rfl
    · rw [show (L ++ "</suggested_questions>".data) ++ R =
        L ++ ("</suggested_questions>".data ++ R) from by simp [List.append_assoc]]
      rw [firstOcc_append_free hsepSE L _ hL, firstOcc_self (by decide)]
      simp
  have hcA : pyContains (P ++ "<answer>".data ++ A ++ "</answer>".data ++ Q ++
      "<suggested_questions>".data ++ L ++ "</suggested_questions>".data ++ R)
      "<answer>".data = true := by
    rw [show P ++ "<answer>".data ++ A ++ "</answer>".data ++ Q ++
        "<suggested_questions>".data ++ L ++ "</suggested_questions>".data ++ R =
      P ++ ("<answer>".data ++ (A ++ "</answer>".data ++ (Q ++
        ("<suggested_questions>".data ++ (L ++ ("</suggested_questions>".data ++ R))))))
      from by simp [List.append_assoc]]
    exact pyContains_append_right P (pyContains_here (by decide) _)
  have hcAE : pyContains (P ++ "<answer>".data ++ A ++ "</answer>".data ++ Q ++
      "<suggested_questions>".data ++ L ++ "</suggested_questions>".data ++ R)
      "</answer>".data = true := by
    rw [show P ++ "<answer>".data ++ A ++ "</answer>".data ++ Q ++
        "<suggested_questions>".data ++ L ++ "</suggested_questions>".data ++ R =
      (P ++ "<answer>".data ++ A) ++ ("</answer>".data ++ (Q ++
        ("<suggested_questions>".data ++ (L ++ ("</suggested_questions>".data ++ R)))))
      from by simp [List.append_assoc]]
    exact pyContains_append_right _ (pyContains_here (by decide) _)
  have hcS : pyContains (P ++ "<answer>".data ++ A ++ "</answer>".data ++ Q ++
      "<suggested_questions>".data ++ L ++ "</suggested_questions>".data ++ R)
      "<suggested_questions>".data = true := by
    rw [show P ++ "<answer>".data ++ A ++ "</answer>".data ++ Q ++
        "<suggested_questions>".data ++ L ++ "</suggested_questions>".data ++ R =
      (P ++ "<answer>".data ++ A ++ "</answer>".data ++ Q) ++
        ("<suggested_questions>".data ++ (L ++ ("</suggested_questions>".data ++ R)))
      from by simp [List.append_assoc]]
    exact pyContains_append_right _ (pyContains_here (by decide) _)
  have hcSE : pyContains (P ++ "<answer>".data ++ A ++ "</answer>".data ++ Q ++
      "<suggested_questions>".data ++ L ++ "</suggested_questions>".data ++ R)
      "</suggested_questions>".data = true := by
    rw [show P ++ "<answer>".data ++ A ++ "</answer>".data ++ Q ++
        "<suggested_questions>".data ++ L ++ "</suggested_questions>".data ++ R =
      (P ++ "<answer>".data ++ A ++ "</answer>".data ++ Q ++
        "<suggested_questions>".data ++ L) ++ ("</suggested_questions>".data ++ R)
      from by simp [List.append_assoc]]
    exact pyContains_append_right _ (pyContains_here (by decide) _)
  unfold process_response extract_response_parts
  simp only [show (String.mk (P ++ "<answer>".data ++ A ++ "</answer>".data ++ Q ++
      "<suggested_questions>".data ++ L ++ "</suggested_questions>".data ++ R)).data =
    P ++ "<answer>".data ++ A ++ "</answer>".data ++ Q ++
      "<suggested_questions>".data ++ L ++ "</suggested_questions>".data ++ R from rfl]
  rw [hcA, hcAE, hcS, hcSE]
  simp only [Bool.and_self, if_true, hb1, hb2]
  rw [if_neg (by
    intro hemp
    exact hstrip (congrArg String.data hemp))]

/-- C4 (amended): the parser returns the trimmed text between `<answer>` and
`</answer>` as the answer (the whole raw response when the answer tags are
absent, since `parts["answer"] or raw_answer` falls back on the empty
string), and the ordered list of **all** non-blank lines between
`<suggested_questions>` and `</suggested_questions>` with leading
numbering/bullet markup stripped — the code imposes no three-element cap:
the suggestion count equals the number of non-blank lines of the block. -/
theorem c4_parser_amended :
    (∀ P A Q L R : List Char,
      (∀ c ∈ P, c ≠ '<') → (∀ c ∈ A, c ≠ '<') → (∀ c ∈ Q, c ≠ '<') →
      (∀ c ∈ L, c ≠ '<') → (∀ c ∈ R, c ≠ '<') → pyStrip A ≠ [] →
      process_response (String.mk (P ++ "<answer>".data ++ A ++ "</answer>".data ++ Q ++
          "<suggested_questions>".data ++ L ++ "</suggested_questions>".data ++ R)) =
        (String.mk (pyStrip A), suggestionLines L)) ∧
    (∀ raw : String,
      pyContains raw.data "<answer>".data = false →
      pyContains raw.data "<suggested_questions>".data = false →
      process_response raw = (raw, [])) ∧
    (∀ block : List Char, (suggestionLines block).length =
      ((pySplitlines (pyStrip block)).filter fun raw => !(pyStrip raw).isEmpty).length) := by
  refine ⟨process_response_tagged, fun raw h1 h2 => ?_, suggestionLines_length⟩
  simp [process_response, extract_response_parts, h1, h2]

/-- Concrete instantiation of `c4_parser_amended`: a tagged response with a
four-line suggestion block yields all four suggestions, and a tagless
response is passed through untouched. -/
theorem c4_witness :
    process_response (String.mk ("x: ".data ++ "<answer>".data ++ " ok ".data ++
        "</answer>".data ++ "\n".data ++ "<suggested_questions>".data ++
        "1. a\n- b\n• c\nd\n".data ++ "</suggested_questions>".data ++ "\n".data)) =
      ("ok", ["a", "b", "c", "d"]) ∧
    process_response "plain" = ("plain", []) := by
  constructor
  · have h := c4_parser_amended.1 "x: ".data " ok ".data "\n".data
      "1. a\n- b\n• c\nd\n".data "\n".data
      (by decide) (by decide) (by decide) (by decide) (by decide) (by decide)
    rw [h]
    decide
  · exact c4_parser_amended.2.1 "plain" (by decide) (by decide)

/-- A `dict.get` result on an all-plain field list is plain (a missed key
returns `None`, which is plain). -/
theorem plainTree_jGet (fs : List (String × JVal)) (k : String)
    (h : plainFields fs = true) : plainTree (jGet fs k) = true := by
  induction fs with
  | nil => simp [jGet, plainTree]
  | cons kv rest ih =>
    obtain ⟨k', v⟩ := kv
    rw [show plainFields ((k', v) :: rest) = (plainTree v && plainFields rest) from rfl,
      Bool.and_eq_true] at h
    by_cases hk : k' = k <;> simp [jGet, hk, h.1, ih h.2]

/-- The key-lookup step of `origResolve` is `dict.get` followed by the
recursive resolve. -/
theorem origList_eq (fs : List (String × JVal)) (k : String) (ks : List String) :
    origList fs k ks = origResolve (jGet fs k) ks := by
  induction fs with
  | nil => cases ks <;> simp [origList, jGet, origResolve]
  | cons kv rest ih =>
    obtain ⟨k', v⟩ := kv
    by_cases hk : k' = k <;> simp [origList, jGet, hk, ih]

/-- On plain trees the `extract_value` walk coincides with the descent
`discover_fields` performed: the list-diving branch that separates them is
never reachable. -/
theorem walkPath_eq_origResolve (ks : List String) :
    ∀ d : JVal, plainTree d = true → walkPath d ks = origResolve d ks := by
  induction ks with
  | nil => intro d _; cases d <;> simp [walkPath, origResolve]
  | cons k ks ih =>
    intro d h
    cases d with
    | null => simp [walkPath, origResolve]
    | num x => simp [walkPath, origResolve]
    | str s => simp [walkPath, origResolve]
    | arr items =>
      cases items with
      | nil => simp [walkPath, origResolve]
      | cons x xs =>
        have hx : isContainer x = false := by
          rw [show plainTree (JVal.arr (x :: xs)) = !(isContainer x) from rfl,
            Bool.not_eq_eq_eq_not, Bool.not_true] at h
          exact h
        simp [walkPath, origResolve, hx]
    | obj fs =>
      have hw : walkPath (JVal.obj fs) (k :: ks) = walkPath (jGet fs k) ks := by
        simp [walkPath]
      rw [hw, show origResolve (JVal.obj fs) (k :: ks) = origList fs k ks from rfl,
        origList_eq fs k ks]
      exact ih (jGet fs k) (plainTree_jGet fs k h)

/-- C3 (amended): the round-trip holds on trees in which no list has a
container first element — there `discover_fields` never dives through a
list, and `extract_value`'s dict-only walk resolves every path to exactly
the value the discovery descent saw, so a non-null original value comes
back non-null.  (On general trees the dive breaks the round trip: see the
counterexample.) -/
theorem c3_roundtrip_amended (d : JVal) (p : String)
    (hplain : plainTree d = true) (hdisc : p ∈ discover_fields d "")
    (hnn : origResolve d (pySplitStr p) ≠ JVal.null) :
    extract_value d p ≠ JVal.null := by
  have h := walkPath_eq_origResolve (pySplitStr p) d hplain
  rw [show extract_value d p = walkPath d (pySplitStr p) from rfl, h]
  exact hnn

/-- Concrete instantiation of `c3_roundtrip_amended`: on the plain tree
`{"a": {"b": 5}}` the discovered path `"a.b"` extracts a non-null value. -/
theorem c3_witness :
    extract_value (JVal.obj [("a", JVal.obj [("b", JVal.num 5)])]) "a.b" ≠ JVal.null :=
  c3_roundtrip_amended (JVal.obj [("a", JVal.obj [("b", JVal.num 5)])]) "a.b"
    (by decide)
    (by decide)
    (by
      rw [show pySplitStr "a.b" = ["a", "b"] from by decide]
      simp [origResolve, origList, jGet])

/-- C5 (amended): for a non-empty telemetry payload the `/analysis` response
computes its metrics from the **extracted** structure
(`compute_metrics(extracted)`), not from the raw inbound telemetry; the two
agree when the ranking selects the whole tree (e.g. the single path
`"messages"`), and empty telemetry is rejected with HTTP 400. -/
theorem c5_analysis_amended :
    (∀ (tele : Tele) (ranked : List String), tele.messages ≠ [] →
      analysis_endpoint tele ranked =
        .val (compute_metrics (extract_relevant_data tele ranked 25),
          extract_relevant_data tele ranked 25)) ∧
    (∀ (tele : Tele) (ranked : List String), tele.messages ≠ [] →
      ranked = ["messages"] →
      analysis_endpoint tele ranked = .val (compute_metrics tele, tele)) ∧
    (∀ (tele : Tele) (ranked : List String), tele.messages = [] →
      analysis_endpoint tele ranked = .exc) := by
  have hsp : pySplitStr "messages" = ["messages"] := by decide
  refine ⟨fun tele ranked h => ?_, fun tele ranked h hr => ?_, fun tele ranked h => ?_⟩
  · simp [analysis_endpoint, h]
  · subst hr
    have hx : extract_relevant_data tele ["messages"] 25 = tele := by
      simp [extract_relevant_data, rebuildSelected, hsp]
    simp [analysis_endpoint, h, hx]
  · simp [analysis_endpoint, h]

/-- Concrete instantiation of `c5_analysis_amended`: with the whole-tree
ranking the endpoint's metrics are `compute_metrics` of the raw telemetry. -/
theorem c5_witness :
    analysis_endpoint
        { messages := [("GPS_RAW_INT", [("satellites_visible", [4, 4, 4])])] }
        ["messages"] =
      .val (compute_metrics
          { messages := [("GPS_RAW_INT", [("satellites_visible", [4, 4, 4])])] },
        { messages := [("GPS_RAW_INT", [("satellites_visible", [4, 4, 4])])] }) :=
  c5_analysis_amended.2.1 _ ["messages"] (List.cons_ne_nil _ _) rfl
